import Mathlib

/-!
Verification of the clinical-notes skill repository: a shallow embedding of
its template localizer (localize-document, two variants), and its FHIR
request executor (fhir-request, two variants), together with proofs of the
behavioural claims about them.

Machine integers do not occur in the embedded code paths; JavaScript strings
are modelled as Lean `String` (lists of characters), JSON values as an
inductive `Json` tree, and the file system and clock as explicit parameters.
-/

/-- The left curly-brace character, written by code point. -/
def braceL : Char := Char.ofNat 123

/-- The right curly-brace character, written by code point. -/
def braceR : Char := Char.ofNat 125

/-- JSON value tree: the result of JavaScript `JSON.parse`. Object fields keep
insertion order, as JavaScript objects do. -/
inductive Json where
  | null
  | bool (b : Bool)
  | num (n : Int)
  | str (s : String)
  | arr (xs : List Json)
  | obj (fields : List (String × Json))

mutual
/-- Boolean equality on `Json`, by mutual structural recursion. -/
def Json.beq : Json → Json → Bool
  | .null, .null => true
  | .bool a, .bool b => a == b
  | .num a, .num b => a == b
  | .str a, .str b => a == b
  | .arr a, .arr b => beqJsonList a b
  | .obj a, .obj b => beqJsonObj a b
  | _, _ => false
/-- Boolean equality on lists of `Json`. -/
def beqJsonList : List Json → List Json → Bool
  | [], [] => true
  | a :: as2, b :: bs => Json.beq a b && beqJsonList as2 bs
  | _, _ => false
/-- Boolean equality on JSON object field lists. -/
def beqJsonObj : List (String × Json) → List (String × Json) → Bool
  | [], [] => true
  | (k1, v1) :: as2, (k2, v2) :: bs => k1 == k2 && Json.beq v1 v2 && beqJsonObj as2 bs
  | _, _ => false
end

mutual
theorem Json.beq_iff : ∀ a b : Json, Json.beq a b = true ↔ a = b
  | .null, b => by cases b <;> simp [Json.beq]
  | .bool x, b => by cases b <;> simp [Json.beq]
  | .num x, b => by cases b <;> simp [Json.beq]
  | .str x, b => by cases b <;> simp [Json.beq]
  | .arr xs, .null | .arr xs, .bool _ | .arr xs, .num _ | .arr xs, .str _
  | .arr xs, .obj _ => by simp [Json.beq]
  | .arr xs, .arr ys => by
      simp only [Json.beq, Json.arr.injEq]
      exact beqJsonList_iff xs ys
  | .obj fs, .null | .obj fs, .bool _ | .obj fs, .num _ | .obj fs, .str _
  | .obj fs, .arr _ => by simp [Json.beq]
  | .obj fs, .obj gs => by
      simp only [Json.beq, Json.obj.injEq]
      exact beqJsonObj_iff fs gs
theorem beqJsonList_iff : ∀ a b : List Json, beqJsonList a b = true ↔ a = b
  | [], [] => by simp [beqJsonList]
  | [], _ :: _ => by simp [beqJsonList]
  | _ :: _, [] => by simp [beqJsonList]
  | x :: xs, y :: ys => by
      simp only [beqJsonList, Bool.and_eq_true, List.cons.injEq]
      rw [Json.beq_iff x y, beqJsonList_iff xs ys]
theorem beqJsonObj_iff : ∀ a b : List (String × Json), beqJsonObj a b = true ↔ a = b
  | [], [] => by simp [beqJsonObj]
  | [], _ :: _ => by simp [beqJsonObj]
  | _ :: _, [] => by simp [beqJsonObj]
  | (k1, v1) :: xs, (k2, v2) :: ys => by
      simp only [beqJsonObj, Bool.and_eq_true, List.cons.injEq, Prod.mk.injEq, beq_iff_eq]
      rw [Json.beq_iff v1 v2, beqJsonObj_iff xs ys, and_assoc]
end

instance : DecidableEq Json := fun a b => decidable_of_iff _ (Json.beq_iff a b)

instance : DecidableEq (Except String Json) := fun a b =>
  match a, b with
  | .error e1, .error e2 => decidable_of_iff (e1 = e2) (by simp)
  | .ok x, .ok y => decidable_of_iff (x = y) (by simp)
  | .error _, .ok _ => isFalse (by simp)
  | .ok _, .error _ => isFalse (by simp)

/-- JavaScript truthiness of a JSON value: `null`, `false`, `0` and the empty
string are falsy; arrays and objects are always truthy. -/
def jsTruthy : Json → Bool
  | .null => false
  | .bool b => b
  | .num n => n != 0
  | .str s => s != ""
  | .arr _ => true
  | .obj _ => true

/-- Truthiness of a possibly-undefined value (`none` models `undefined`). -/
def jsTruthyOpt : Option Json → Bool
  | none => false
  | some v => jsTruthy v

/-- First-match lookup in a JSON object field list. -/
def lookupField : List (String × Json) → String → Option Json
  | [], _ => none
  | (k2, v) :: rest, k => if k2 = k then some v else lookupField rest k

/-- JavaScript property read `j[k]` on a parsed JSON value: objects look the
key up, every other value yields `undefined` (`none`). -/
def jsGet (j : Json) (k : String) : Option Json :=
  match j with
  | .obj fs => lookupField fs k
  | _ => none

/-- Property write on a field list: update the existing key in place, else
append at the end (JavaScript insertion-order semantics). -/
def setField : List (String × Json) → String → Json → List (String × Json)
  | [], k, v => [(k, v)]
  | (k2, v2) :: rest, k, v =>
      if k2 = k then (k, v) :: rest else (k2, v2) :: setField rest k v

/-- JavaScript property assignment `j[k] = v` on a parsed JSON value.
Assignment to a non-object is a no-op here (the embedded code never does it). -/
def jsSet (j : Json) (k : String) (v : Json) : Json :=
  match j with
  | .obj fs => .obj (setField fs k v)
  | _ => j

/-- Remove the (first) binding of a key from a field list. -/
def removeField : List (String × Json) → String → List (String × Json)
  | [], _ => []
  | (k2, v2) :: rest, k => if k2 = k then rest else (k2, v2) :: removeField rest k

/-- JavaScript `delete j[k]` on a parsed JSON value. -/
def jsDelete (j : Json) (k : String) : Json :=
  match j with
  | .obj fs => .obj (removeField fs k)
  | _ => j

/-- Chained property reads `j[k1][k2]...`. -/
def jsGetIn (j : Json) : List String → Option Json
  | [] => some j
  | k :: ks =>
      match jsGet j k with
      | some v => jsGetIn v ks
      | none => none

/-- Array index read `j[i]` on a parsed JSON value. -/
def arrIdx (j : Json) (i : Nat) : Option Json :=
  match j with
  | .arr xs => xs.get? i
  | _ => none

-- ### String utilities mirroring the JavaScript operations used by the code.

/-- One pass of global literal replacement (JavaScript
`s.replace(/pat/g, repl)`): scan left to right, replace non-overlapping
occurrences, never rescan the replacement text. Fuel-structural so that it
computes by kernel reduction; callers pass the length of the subject. -/
def replaceFuel (pat repl : List Char) : Nat → List Char → List Char
  | _, [] => []
  | 0, s => s
  | n + 1, c :: cs =>
      if pat.isPrefixOf (c :: cs) then
        repl ++ replaceFuel pat repl n (cs.drop (pat.length - 1))
      else
        c :: replaceFuel pat repl n cs

/-- JavaScript `s.replace(/pat/g, repl)` for a literal pattern. -/
def replaceAll (pat repl s : String) : String :=
  ⟨replaceFuel pat.data repl.data s.data.length s.data⟩

/-- First-occurrence-only replacement (JavaScript `s.replace(pat, repl)` with
a string pattern replaces only the first occurrence). -/
def replaceFirstFuel (pat repl : List Char) : Nat → List Char → List Char
  | _, [] => []
  | 0, s => s
  | n + 1, c :: cs =>
      if pat.isPrefixOf (c :: cs) then
        repl ++ cs.drop (pat.length - 1)
      else
        c :: replaceFirstFuel pat repl n cs

/-- JavaScript `s.replace(pat, repl)` with a plain string pattern. -/
def replaceFirst (pat repl s : String) : String :=
  ⟨replaceFirstFuel pat.data repl.data s.data.length s.data⟩

/-- Does `pat` occur as a contiguous substring of `s`
(JavaScript `s.includes(pat)`)? -/
def containsSub (pat : List Char) : List Char → Bool
  | [] => pat.isPrefixOf []
  | c :: rest => pat.isPrefixOf (c :: rest) || containsSub pat rest

/-- JavaScript `s.endsWith(suf)`. -/
def strEndsWith (s suf : String) : Bool := suf.data.isSuffixOf s.data

/-- The whitespace class used by the JavaScript string operations the code
relies on (space, tab, newline, carriage return — the characters that occur
in its inputs). -/
def isWsChar (c : Char) : Bool := c = ' ' || c = '\n' || c = '\t' || c = '\r'

/-- JavaScript `s.trim()`. -/
def jsTrim (s : String) : String :=
  ⟨((s.data.dropWhile isWsChar).reverse.dropWhile isWsChar).reverse⟩

/-- JavaScript `String.prototype.split` on a single-character separator:
`"".split(sep) = [""]`, adjacent separators give empty fields. -/
def splitOnCharList (sep : Char) : List Char → List (List Char)
  | [] => [[]]
  | c :: cs =>
      match splitOnCharList sep cs with
      | t :: ts => if c = sep then [] :: t :: ts else (c :: t) :: ts
      | [] => [[c]]

/-- JavaScript `s.split(sepChar)`. -/
def splitOnChar (sep : Char) (s : String) : List String :=
  (splitOnCharList sep s.data).map (fun l => ⟨l⟩)

/-- JavaScript `a || b` on strings: the empty string is falsy. -/
def jsOr (s d : String) : String := if s = "" then d else s

/-- JavaScript `opt || d` where `opt` may be `undefined`. -/
def jsOrOpt (o : Option String) (d : String) : String :=
  match o with
  | some s => jsOr s d
  | none => d

/-- Truthiness of an optional string (`undefined` and `""` are falsy). -/
def strTruthy (o : Option String) : Bool :=
  match o with
  | some s => s != ""
  | none => false

/-- `Array.prototype.flatten(sep)`. -/
def joinWith (sep : String) : List String → String
  | [] => ""
  | [x] => x
  | x :: y :: rest => x ++ sep ++ joinWith sep (y :: rest)

-- ### Base64 (Node `Buffer.toString('base64')` / standard RFC 4648 alphabet).

/-- The standard base64 alphabet. -/
def b64Table : List Char :=
  "ABCDEFGHIJKLMNOPQRSTUVWXYZabcdefghijklmnopqrstuvwxyz0123456789+/".data

/-- Character for a sextet value. -/
def b64c (n : Nat) : Char :=
  if h : n < b64Table.length then b64Table.get ⟨n, h⟩ else 'A'

/-- Value of a base64 character (64 for a character outside the alphabet). -/
def b64v (c : Char) : Nat :=
  match b64Table.indexOf? c with
  | some i => i
  | none => 64

/-- Base64-encode a byte list, with `=` padding. -/
def base64Encode : List Nat → List Char
  | [] => []
  | [a] => [b64c (a / 4), b64c (a % 4 * 16), '=', '=']
  | [a, b] => [b64c (a / 4), b64c (a % 4 * 16 + b / 16), b64c (b % 16 * 4), '=']
  | a :: b :: c :: rest =>
      b64c (a / 4) :: b64c (a % 4 * 16 + b / 16) :: b64c (b % 16 * 4 + c / 64) ::
        b64c (c % 64) :: base64Encode rest

/-- Base64-encode a byte list into a string. -/
def base64EncodeStr (bs : List Nat) : String := ⟨base64Encode bs⟩

/-- Base64-decode a character list back to bytes (handles the padding forms
produced by `base64Encode`). -/
def base64Decode : List Char → Option (List Nat)
  | [] => some []
  | c0 :: c1 :: c2 :: c3 :: rest =>
      if c2 = '=' ∧ c3 = '=' ∧ rest = [] then some [b64v c0 * 4 + b64v c1 / 16]
      else if c3 = '=' ∧ rest = [] then
        some [b64v c0 * 4 + b64v c1 / 16, b64v c1 % 16 * 16 + b64v c2 / 4]
      else
        match base64Decode rest with
        | some l =>
            some ((b64v c0 * 4 + b64v c1 / 16) :: (b64v c1 % 16 * 16 + b64v c2 / 4) ::
              (b64v c2 % 4 * 64 + b64v c3) :: l)
        | none => none
  | _ => none

-- ### UTF-8 bytes of a string (Node `Buffer.from(s, 'utf-8')`).

/-- UTF-8 encoding of one character, as byte values. -/
def utf8EncodeCharM (c : Char) : List Nat :=
  if c.toNat < 128 then [c.toNat]
  else if c.toNat < 2048 then [192 + c.toNat / 64, 128 + c.toNat % 64]
  else if c.toNat < 65536 then
    [224 + c.toNat / 4096, 128 + c.toNat / 64 % 64, 128 + c.toNat % 64]
  else
    [240 + c.toNat / 262144, 128 + c.toNat / 4096 % 64, 128 + c.toNat / 64 % 64,
      128 + c.toNat % 64]

/-- UTF-8 bytes of a string. -/
def utf8Bytes (s : String) : List Nat := (s.data.map utf8EncodeCharM).flatten

-- ### A JSON parser (model of JavaScript `JSON.parse`; integral numbers).

/-- Drop leading JSON whitespace. -/
def skipWs (s : List Char) : List Char := s.dropWhile isWsChar

/-- Decode one string-escape character (the escapes the code's inputs use). -/
def escChar (e : Char) : Option Char :=
  if e = '"' then some '"'
  else if e = '\\' then some '\\'
  else if e = '/' then some '/'
  else if e = 'n' then some '\n'
  else if e = 't' then some '\t'
  else if e = 'r' then some '\r'
  else none

/-- Parse the body of a JSON string literal after the opening quote; returns
the content and the remainder after the closing quote. -/
def parseStrBody : List Char → Option (List Char × List Char)
  | [] => none
  | '"' :: rest => some ([], rest)
  | '\\' :: e :: rest =>
      match escChar e with
      | none => none
      | some d =>
          match parseStrBody rest with
          | none => none
          | some (cs, r) => some (d :: cs, r)
  | c :: rest =>
      match parseStrBody rest with
      | none => none
      | some (cs, r) => some (c :: cs, r)

/-- Digits-to-number accumulator. -/
def digitsToNat (ds : List Char) : Nat :=
  ds.foldl (fun a c => a * 10 + (c.toNat - 48)) 0

/-- Parse a JSON integer (optional minus sign, one or more digits). The model
restricts JSON numbers to integers; the embedded code paths only produce and
consume integral numbers. -/
def parseIntLit (s : List Char) : Option (Json × List Char) :=
  match s with
  | '-' :: rest =>
      let ds := rest.takeWhile Char.isDigit
      if ds = [] then none
      else some (.num (-(digitsToNat ds : Int)), rest.dropWhile Char.isDigit)
  | _ =>
      let ds := s.takeWhile Char.isDigit
      if ds = [] then none
      else some (.num (digitsToNat ds : Int), s.dropWhile Char.isDigit)

mutual
/-- Parse one JSON value; fuel bounds the nesting depth. -/
def parseVal : Nat → List Char → Option (Json × List Char)
  | 0, _ => none
  | fuel + 1, s =>
      match skipWs s with
      | 'n' :: 'u' :: 'l' :: 'l' :: rest => some (.null, rest)
      | 't' :: 'r' :: 'u' :: 'e' :: rest => some (.bool true, rest)
      | 'f' :: 'a' :: 'l' :: 's' :: 'e' :: rest => some (.bool false, rest)
      | '"' :: rest =>
          match parseStrBody rest with
          | some (cs, r) => some (.str ⟨cs⟩, r)
          | none => none
      | '[' :: rest =>
          (match skipWs rest with
           | ']' :: r2 => some (.arr [], r2)
           | s2 =>
               match parseItems fuel s2 with
               | some (xs, r) => some (.arr xs, r)
               | none => none)
      | c :: rest =>
          if c = braceL then
            match skipWs rest with
            | c2 :: r2 =>
                if c2 = braceR then some (.obj [], r2)
                else
                  (match parseFields fuel (c2 :: r2) with
                   | some (fs, r) => some (.obj fs, r)
                   | none => none)
            | [] => none
          else parseIntLit (c :: rest)
      | [] => none
/-- Parse one or more comma-separated array items up to `]`. -/
def parseItems : Nat → List Char → Option (List Json × List Char)
  | 0, _ => none
  | fuel + 1, s =>
      match parseVal fuel s with
      | none => none
      | some (j, r) =>
          match skipWs r with
          | ',' :: r2 =>
              (match parseItems fuel r2 with
               | some (xs, r3) => some (j :: xs, r3)
               | none => none)
          | ']' :: r2 => some ([j], r2)
          | _ => none
/-- Parse one or more comma-separated object fields up to the closing brace. -/
def parseFields : Nat → List Char → Option (List (String × Json) × List Char)
  | 0, _ => none
  | fuel + 1, s =>
      match skipWs s with
      | '"' :: rest =>
          match parseStrBody rest with
          | none => none
          | some (kcs, r) =>
              match skipWs r with
              | ':' :: r2 =>
                  (match parseVal fuel r2 with
                   | none => none
                   | some (v, r3) =>
                       match skipWs r3 with
                       | ',' :: r4 =>
                           (match parseFields fuel r4 with
                            | some (fs, r5) => some ((⟨kcs⟩, v) :: fs, r5)
                            | none => none)
                       | c :: r4 =>
                           if c = braceR then some ([(⟨kcs⟩, v)], r4) else none
                       | [] => none)
              | _ => none
      | _ => none
end

/-- Model of JavaScript `JSON.parse`: `none` is a thrown `SyntaxError`. -/
def jsonParse (s : String) : Option Json :=
  match parseVal (s.length + 1) s.data with
  | some (j, r) => if skipWs r = [] then some j else none
  | none => none

/-- The parser error detail (`e.message`) is not modelled beyond its
existence; this constant stands for it. -/
def jsonParseErrorMsg : String := "JSON Parse error"

/-- JSON string-character escaping used by the serializer. -/
def escapeJsonChar (c : Char) : List Char :=
  if c = '"' then ['\\', '"']
  else if c = '\\' then ['\\', '\\']
  else if c = '\n' then ['\\', 'n']
  else if c = '\t' then ['\\', 't']
  else if c = '\r' then ['\\', 'r']
  else [c]

mutual
/-- Serialize a JSON value (model of `JSON.stringify`; the 2-space pretty
printing of the original is abstracted to compact JSON-equivalent text). -/
def Json.render : Json → String
  | .null => "null"
  | .bool true => "true"
  | .bool false => "false"
  | .num n => toString n
  | .str s => ⟨'"' :: (s.data.map escapeJsonChar).flatten ++ ['"']⟩
  | .arr xs => "[" ++ renderJsonList xs ++ "]"
  | .obj fs => "\x7b" ++ renderJsonObj fs ++ "\x7d"
/-- Serialize array elements. -/
def renderJsonList : List Json → String
  | [] => ""
  | [x] => Json.render x
  | x :: y :: rest => Json.render x ++ "," ++ renderJsonList (y :: rest)
/-- Serialize object fields. -/
def renderJsonObj : List (String × Json) → String
  | [] => ""
  | [(k, v)] => ⟨'"' :: (k.data.map escapeJsonChar).flatten ++ ['"']⟩ ++ ":" ++ Json.render v
  | (k, v) :: f :: rest =>
      ⟨'"' :: (k.data.map escapeJsonChar).flatten ++ ['"']⟩ ++ ":" ++ Json.render v ++ "," ++
        renderJsonObj (f :: rest)
end

-- ### Template localizer data model (localize-document, current variant).

/-- One entry of the static template mapping table (source interface
`TemplateMapping`). -/
structure TemplateMapping where
  template : String
  contentFile : Option String := none
  contentGenerator : Option String := none
  contentType : String
  noteType : String
deriving DecidableEq

/-- The static mapping table `TEMPLATE_MAPPINGS` of the current localizer,
as an insertion-ordered association list. -/
def TEMPLATE_MAPPINGS : List (String × TemplateMapping) :=
  [ ("consultation",
      { template := "consultation-note.json", contentFile := some "consultation-note.txt",
        contentType := "text/plain; charset=utf-8", noteType := "Consultation note" }),
    ("progress",
      { template := "progress-note.json", contentFile := some "progress-note.txt",
        contentType := "text/plain; charset=utf-8", noteType := "Progress note" }),
    ("pdf",
      { template := "consultation-note-pdf.json", contentGenerator := some "generate-pdf.ts",
        contentType := "application/pdf", noteType := "Consultation note" }),
    ("cda",
      { template := "discharge-summary-cda-xml.json",
        contentGenerator := some "generate-cda-xml.ts",
        contentType := "application/cda+xml", noteType := "Discharge summary" }),
    ("xhtml",
      { template := "discharge-summary-xhtml.json",
        contentGenerator := some "generate-xhtml.ts",
        contentType := "application/xhtml+xml", noteType := "Discharge summary" }),
    ("html",
      { template := "progress-note-html.json", contentGenerator := some "generate-html.ts",
        contentType := "text/html; charset=utf-8", noteType := "Progress note" }),
    ("large",
      { template := "large-note.json", contentGenerator := some "generate-large-file.ts",
        contentType := "text/plain; charset=utf-8", noteType := "Summary of episode note" }),
    ("patient-asserted",
      { template := "patient-asserted-note.json", contentFile := some "patient-log.txt",
        contentType := "text/plain; charset=utf-8", noteType := "Progress note" }) ]

/-- First-match association lookup (JavaScript record indexing). -/
def lookupStr {α : Type} : List (String × α) → String → Option α
  | [], _ => none
  | (k2, v) :: rest, k => if k2 = k then some v else lookupStr rest k

/-- Input to the contained-encounter option: the source field is `any` and is
either a JSON string (CLI use) or an already-parsed object (library use). -/
inductive ContainedInput where
  | rawStr (s : String)
  | asObj (j : Json)
deriving DecidableEq

/-- Caller options of the current localizer (source interface
`LocalizationOptions`). Optional fields model possibly-`undefined` values. -/
structure LocalizationOptions where
  type : String
  patientId : String
  patientName : Option String := none
  authorReference : Option String := none
  authorDisplay : Option String := none
  encounterReference : Option String := none
  encounterDisplay : Option String := none
  encounterContained : Option ContainedInput := none
  identifierSystem : Option String := none
  server : String
  outputDir : Option String := none
  writeToFile : Option Bool := none
deriving DecidableEq

/-- The clock values sampled by `replaceContentPlaceholders` from one
`new Date()` (date, HH:MM time, ISO timestamp, compacted CDA timestamp). -/
structure TimeParts where
  currentDate : String
  currentTime : String
  currentTimestamp : String
  currentTimestampCDA : String
deriving DecidableEq

-- Placeholder tokens (`{{NAME}}` markers written by code point for braces).

/-- Placeholder token for the patient display name. -/
def phPATIENT_NAME : String := "\x7b\x7bPATIENT_NAME\x7d\x7d"

/-- Placeholder token for the patient id. -/
def phPATIENT_ID : String := "\x7b\x7bPATIENT_ID\x7d\x7d"

/-- Placeholder token for the patient given name. -/
def phPATIENT_GIVEN_NAME : String := "\x7b\x7bPATIENT_GIVEN_NAME\x7d\x7d"

/-- Placeholder token for the patient family name. -/
def phPATIENT_FAMILY_NAME : String := "\x7b\x7bPATIENT_FAMILY_NAME\x7d\x7d"

/-- Placeholder token for the author display name. -/
def phAUTHOR_NAME : String := "\x7b\x7bAUTHOR_NAME\x7d\x7d"

/-- Placeholder token for the author given name. -/
def phAUTHOR_GIVEN_NAME : String := "\x7b\x7bAUTHOR_GIVEN_NAME\x7d\x7d"

/-- Placeholder token for the author family name. -/
def phAUTHOR_FAMILY_NAME : String := "\x7b\x7bAUTHOR_FAMILY_NAME\x7d\x7d"

/-- Placeholder token for the author suffix. -/
def phAUTHOR_SUFFIX : String := "\x7b\x7bAUTHOR_SUFFIX\x7d\x7d"

/-- Placeholder token for the author title. -/
def phAUTHOR_TITLE : String := "\x7b\x7bAUTHOR_TITLE\x7d\x7d"

/-- Placeholder token for the application name. -/
def phAPP_NAME : String := "\x7b\x7bAPP_NAME\x7d\x7d"

/-- Placeholder token for the current date. -/
def phCURRENT_DATE : String := "\x7b\x7bCURRENT_DATE\x7d\x7d"

/-- Placeholder token for the current time. -/
def phCURRENT_TIME : String := "\x7b\x7bCURRENT_TIME\x7d\x7d"

/-- Placeholder token for the current ISO timestamp. -/
def phCURRENT_TIMESTAMP : String := "\x7b\x7bCURRENT_TIMESTAMP\x7d\x7d"

/-- Placeholder token for the CDA-format timestamp. -/
def phCURRENT_TIMESTAMP_CDA : String := "\x7b\x7bCURRENT_TIMESTAMP_CDA\x7d\x7d"

/-- Placeholder token for the identifier system. -/
def phIDENTIFIER_SYSTEM : String := "\x7b\x7bIDENTIFIER_SYSTEM\x7d\x7d"

/-- Placeholder token for the identifier value. -/
def phIDENTIFIER_VALUE : String := "\x7b\x7bIDENTIFIER_VALUE\x7d\x7d"

/-- Placeholder token for the author reference. -/
def phAUTHOR_REFERENCE : String := "\x7b\x7bAUTHOR_REFERENCE\x7d\x7d"

/-- Placeholder token for the author display. -/
def phAUTHOR_DISPLAY : String := "\x7b\x7bAUTHOR_DISPLAY\x7d\x7d"

/-- Placeholder token for the encounter reference. -/
def phENCOUNTER_REFERENCE : String := "\x7b\x7bENCOUNTER_REFERENCE\x7d\x7d"

/-- Placeholder token for the encounter display. -/
def phENCOUNTER_DISPLAY : String := "\x7b\x7bENCOUNTER_DISPLAY\x7d\x7d"

/-- Placeholder token for the encounter identifier system (older variant). -/
def phENCOUNTER_IDENTIFIER_SYSTEM : String := "\x7b\x7bENCOUNTER_IDENTIFIER_SYSTEM\x7d\x7d"

/-- Placeholder token for the encounter identifier value (older variant). -/
def phENCOUNTER_IDENTIFIER_VALUE : String := "\x7b\x7bENCOUNTER_IDENTIFIER_VALUE\x7d\x7d"

/-- Placeholder token for the encounter start (older variant). -/
def phENCOUNTER_START : String := "\x7b\x7bENCOUNTER_START\x7d\x7d"

/-- Placeholder token for the encounter end (older variant). -/
def phENCOUNTER_END : String := "\x7b\x7bENCOUNTER_END\x7d\x7d"

/-- Placeholder token for the period start. -/
def phPERIOD_START : String := "\x7b\x7bPERIOD_START\x7d\x7d"

/-- Placeholder token for the period end. -/
def phPERIOD_END : String := "\x7b\x7bPERIOD_END\x7d\x7d"

/-- Placeholder token for the content type. -/
def phCONTENT_TYPE : String := "\x7b\x7bCONTENT_TYPE\x7d\x7d"

/-- Placeholder token for the base64 content. -/
def phBASE64_CONTENT : String := "\x7b\x7bBASE64_CONTENT\x7d\x7d"

/-- Placeholder token for the content size. -/
def phCONTENT_SIZE : String := "\x7b\x7bCONTENT_SIZE\x7d\x7d"

/-- Strip the leading author title (regex `/^Dr\.\s*/`): the characters
`Dr.` followed by any run of whitespace, removed once at the start. -/
def stripDrTitle (s : String) : String :=
  if ['D', 'r', '.'].isPrefixOf s.data then ⟨(s.data.drop 3).dropWhile isWsChar⟩ else s

/-- The name fields computed inside `replaceContentPlaceholders`. -/
structure NameParts where
  patientName : String
  patientGiven : String
  patientFamily : String
  authorDisplay : String
  authorGiven : String
  authorFamily : String
  authorSuffix : String
deriving DecidableEq

/-- Array-destructuring default: `undefined` (and only `undefined`) falls
back to the default. -/
def destructD (o : Option String) (d : String) : String :=
  match o with
  | some s => s
  | none => d

/-- Name parsing of `replaceContentPlaceholders` (identical in both localizer
variants): `patientName.split(' ')` destructured to given and family with
defaults, author display stripped of the `Dr.` title then split, with
first/last element and `||` defaults, and the `MD` suffix test on the raw
author display. -/
def contentNameParts (opts : LocalizationOptions) : NameParts :=
  let patientName := jsOrOpt opts.patientName "Test Patient"
  let parts := splitOnChar ' ' patientName
  let patientGiven := destructD (parts.get? 0) "Test"
  let patientFamily := destructD (parts.get? 1) "Patient"
  let authorDisplay := jsOrOpt opts.authorDisplay "Dr. Example Provider"
  let authorParts := splitOnChar ' ' (stripDrTitle authorDisplay)
  let authorGiven := jsOr (authorParts.getD 0 "") "Example"
  let authorFamily := jsOr (authorParts.getD (authorParts.length - 1) "") "Provider"
  let authorSuffix := if containsSub "MD".data authorDisplay.data then "MD" else ""
  { patientName := patientName, patientGiven := patientGiven,
    patientFamily := patientFamily, authorDisplay := authorDisplay,
    authorGiven := authorGiven, authorFamily := authorFamily,
    authorSuffix := authorSuffix }

/-- Apply an ordered list of global replacements (a chain of
`.replace(/pat/g, v)` calls). -/
def substLeaf (ps : List (String × String)) (s : String) : String :=
  ps.foldl (fun acc p => replaceAll p.1 p.2 acc) s

/-- The ordered replacement list of `replaceContentPlaceholders` (identical
in both localizer variants). -/
def contentPairs (opts : LocalizationOptions) (tp : TimeParts) : List (String × String) :=
  let np := contentNameParts opts
  [ (phPATIENT_NAME, np.patientName),
    (phPATIENT_ID, opts.patientId),
    (phPATIENT_GIVEN_NAME, np.patientGiven),
    (phPATIENT_FAMILY_NAME, np.patientFamily),
    (phAUTHOR_NAME, np.authorDisplay),
    (phAUTHOR_GIVEN_NAME, np.authorGiven),
    (phAUTHOR_FAMILY_NAME, np.authorFamily),
    (phAUTHOR_SUFFIX, np.authorSuffix),
    (phAUTHOR_TITLE, jsOr np.authorSuffix "MD"),
    (phAPP_NAME, "FHIR Test App"),
    (phCURRENT_DATE, tp.currentDate),
    (phCURRENT_TIME, tp.currentTime),
    (phCURRENT_TIMESTAMP, tp.currentTimestamp),
    (phCURRENT_TIMESTAMP_CDA, tp.currentTimestampCDA) ]

/-- `replaceContentPlaceholders` of both localizer variants: the content-level
token substitution pass run over content text before base64 encoding. -/
def replaceContentPlaceholders (content : String) (opts : LocalizationOptions)
    (tp : TimeParts) : String :=
  substLeaf (contentPairs opts tp) content

mutual
/-- Apply a string transformation to every string leaf of a JSON value. -/
def Json.mapStr (f : String → String) : Json → Json
  | .str s => .str (f s)
  | .arr xs => .arr (mapStrJsonList f xs)
  | .obj fs => .obj (mapStrJsonObj f fs)
  | .null => .null
  | .bool b => .bool b
  | .num n => .num n
/-- Leaf transformation over a JSON array. -/
def mapStrJsonList (f : String → String) : List Json → List Json
  | [] => []
  | j :: js => Json.mapStr f j :: mapStrJsonList f js
/-- Leaf transformation over JSON object fields (template files put
placeholders only in string values, never in keys). -/
def mapStrJsonObj (f : String → String) : List (String × Json) → List (String × Json)
  | [] => []
  | (k, v) :: rest => (k, Json.mapStr f v) :: mapStrJsonObj f rest
end

/-- The main replacement chain of the current localizer `localizeTemplate`
(everything before the encounter-specific block), in source order. -/
def basePairs (opts : LocalizationOptions) (ts idv b64 : String) (size : Nat)
    (ctype : String) : List (String × String) :=
  [ (phIDENTIFIER_SYSTEM, jsOrOpt opts.identifierSystem "https://example.com/fhir-test"),
    (phIDENTIFIER_VALUE, idv),
    (phPATIENT_ID, opts.patientId),
    (phPATIENT_NAME, jsOrOpt opts.patientName "Test Patient"),
    (phAUTHOR_REFERENCE, jsOrOpt opts.authorReference "Practitioner/example"),
    (phAUTHOR_DISPLAY, jsOrOpt opts.authorDisplay "Dr. Example Provider"),
    (phCURRENT_TIMESTAMP, ts),
    (phPERIOD_START, ts),
    (phPERIOD_END, ts),
    (phCONTENT_TYPE, ctype),
    (phBASE64_CONTENT, b64),
    (phCONTENT_SIZE, toString size),
    (phAPP_NAME, "FHIR Test App") ]

/-- The encounter replacement block of the current localizer: the supplied
reference and display when an encounter reference is given (truthy), empty
strings otherwise. -/
def encPairs (opts : LocalizationOptions) : List (String × String) :=
  if strTruthy opts.encounterReference then
    [ (phENCOUNTER_REFERENCE, (opts.encounterReference.getD "")),
      (phENCOUNTER_DISPLAY, jsOrOpt opts.encounterDisplay "Encounter") ]
  else
    [ (phENCOUNTER_REFERENCE, ""), (phENCOUNTER_DISPLAY, "") ]

/-- Validity test of one `context.encounter` entry used by the empty-encounter
cleanup: `enc.reference && enc.reference.trim() !== ''`. Calling `.trim()` on
a truthy non-string is a JavaScript `TypeError`, modelled as an error. -/
def encEntryValid (e : Json) : Except String Bool :=
  match jsGet e "reference" with
  | none => .ok false
  | some v =>
      if jsTruthy v = false then .ok false
      else
        match v with
        | .str r => .ok (decide (jsTrim r ≠ ""))
        | _ => .error "TypeError: enc.reference.trim is not a function"

/-- `Array.prototype.some` over the validity test (short-circuiting). -/
def hasValidEnc : List Json → Except String Bool
  | [] => .ok false
  | e :: es => do
      let b ← encEntryValid e
      if b then pure true else hasValidEnc es

/-- The empty-encounter cleanup of the current localizer: when no encounter
reference was supplied and `parsed.context?.encounter` is truthy, delete
`context.encounter` unless some entry has a non-empty trimmed reference.
`.some` on a truthy non-array is a JavaScript `TypeError`. -/
def deleteEmptyEncounter (hasEncRef : Bool) (parsed : Json) : Except String Json :=
  if hasEncRef then .ok parsed
  else
    match jsGet parsed "context" with
    | none => .ok parsed
    | some ctx =>
        match jsGet ctx "encounter" with
        | none => .ok parsed
        | some enc =>
            if jsTruthy enc = false then .ok parsed
            else
              match enc with
              | .arr es => do
                  let valid ← hasValidEnc es
                  if valid then pure parsed
                  else pure (jsSet parsed "context" (jsDelete ctx "encounter"))
              | _ => .error "TypeError: parsed.context.encounter.some is not a function"

/-- Truthiness of the contained-encounter option value. -/
def containedTruthy : ContainedInput → Bool
  | .rawStr s => s != ""
  | .asObj j => jsTruthy j

/-- The contained-encounter block of the current localizer: a string value is
`JSON.parse`d (a failure is a fatal error naming the offending option), the
resulting object is pushed onto `parsed.contained`, which is first set to `[]`
when falsy. `.push` on a truthy non-array is a JavaScript `TypeError`. -/
def applyContained (ec : Option ContainedInput) (parsed : Json) : Except String Json :=
  match ec with
  | none => .ok parsed
  | some inp =>
      if containedTruthy inp = false then .ok parsed
      else do
        let enc ← (match inp with
          | .rawStr s =>
              (match jsonParse s with
               | some j => Except.ok j
               | none =>
                   Except.error ("Invalid JSON in --encounter-contained: " ++ jsonParseErrorMsg))
          | .asObj j => Except.ok j)
        match jsGet parsed "contained" with
        | some (.arr xs) => pure (jsSet parsed "contained" (.arr (xs ++ [enc])))
        | cur =>
            if jsTruthyOpt cur then
              Except.error "TypeError: parsed.contained.push is not a function"
            else pure (jsSet parsed "contained" (.arr [enc]))

/-- `localizeTemplate` of the current localizer. The original substitutes
placeholders in the template text and then `JSON.parse`s it; templates carry
their placeholders inside JSON string values, so this is modelled as the same
replacement chain applied to every string leaf of the parsed template, which
agrees with the original whenever substituted values stay inside their string
literal. `ts` models the ISO timestamp of `new Date()`, `nowMs` the value of
`Date.now()`. -/
def localizeTemplate (template : Json) (opts : LocalizationOptions) (b64 : String)
    (size : Nat) (ctype : String) (ts : String) (nowMs : Nat) : Except String Json :=
  let idv := opts.type ++ "-" ++ toString nowMs
  let parsed := Json.mapStr (substLeaf (basePairs opts ts idv b64 size ctype ++ encPairs opts))
    template
  do
    let p2 ← deleteEmptyEncounter (strTruthy opts.encounterReference) parsed
    applyContained opts.encounterContained p2

/-- The unknown-type error message of `localizeDocumentReference`. -/
def unknownTypeMsg (t : String) : String :=
  "Unknown document type: " ++ t ++ ". Available: " ++
    joinWith ", " (TEMPLATE_MAPPINGS.map (fun p => p.1))

/-- The file-system-free core of `localizeDocumentReference`: mapping lookup,
content placeholder substitution, UTF-8 encoding, base64 encoding, and
template localization. `template` stands for the parsed template file text
and `contentText` for the raw content-file or generator output text. -/
def localizeDocRefCore (opts : LocalizationOptions) (template : Json)
    (contentText : String) (tp : TimeParts) (ts : String) (nowMs : Nat) :
    Except String Json :=
  match lookupStr TEMPLATE_MAPPINGS opts.type with
  | none => .error (unknownTypeMsg opts.type)
  | some m =>
      let substituted := replaceContentPlaceholders contentText opts tp
      let bytes := utf8Bytes substituted
      localizeTemplate template opts (base64EncodeStr bytes) bytes.length m.contentType ts nowMs

/-- Modelled from the spec: the JSON template files under `assets/templates`
are not part of the provided source tree. This is a representative
DocumentReference template as the spec describes them — placeholder tokens
inside JSON string values, with the content type and base64 payload slots in
`content[0].attachment` and the encounter slots in `context.encounter`. -/
def docTemplateSpec : Json :=
  .obj
    [ ("resourceType", .str "DocumentReference"),
      ("status", .str "current"),
      ("identifier",
        .arr [.obj [("system", .str phIDENTIFIER_SYSTEM), ("value", .str phIDENTIFIER_VALUE)]]),
      ("subject", .obj [("reference", .str ("Patient/" ++ phPATIENT_ID))]),
      ("date", .str phCURRENT_TIMESTAMP),
      ("author", .arr [.obj [("reference", .str phAUTHOR_REFERENCE),
        ("display", .str phAUTHOR_DISPLAY)]]),
      ("description", .str phAPP_NAME),
      ("context",
        .obj
          [ ("encounter",
              .arr [.obj [("reference", .str phENCOUNTER_REFERENCE),
                ("display", .str phENCOUNTER_DISPLAY)]]),
            ("period", .obj [("start", .str phPERIOD_START), ("end", .str phPERIOD_END)]) ]),
      ("content",
        .arr [.obj [("attachment", .obj [("contentType", .str phCONTENT_TYPE),
          ("data", .str phBASE64_CONTENT)])]]) ]

-- ### Older localizer variant (fhir-connectathon-notes copy).

/-- The replacement chain of the older localizer `localizeTemplate`: encounter
placeholders always receive a value, defaulting to the contained reference
`#e1` and display `Office Visit`, with fixed encounter and period instants. -/
def pairsV1 (opts : LocalizationOptions) (ts idv b64 : String) (size : Nat)
    (ctype : String) (nowMs : Nat) : List (String × String) :=
  [ (phIDENTIFIER_SYSTEM, jsOrOpt opts.identifierSystem "https://example.com/fhir-test"),
    (phIDENTIFIER_VALUE, idv),
    (phPATIENT_ID, opts.patientId),
    (phPATIENT_NAME, jsOrOpt opts.patientName "Test Patient"),
    (phAUTHOR_REFERENCE, jsOrOpt opts.authorReference "Practitioner/example"),
    (phAUTHOR_DISPLAY, jsOrOpt opts.authorDisplay "Dr. Example Provider"),
    (phENCOUNTER_REFERENCE, jsOrOpt opts.encounterReference "#e1"),
    (phENCOUNTER_DISPLAY, jsOrOpt opts.encounterDisplay "Office Visit"),
    (phENCOUNTER_IDENTIFIER_SYSTEM,
      jsOrOpt opts.identifierSystem "https://example.com/fhir-test" ++ "/encounters"),
    (phENCOUNTER_IDENTIFIER_VALUE, "enc-" ++ toString nowMs),
    (phENCOUNTER_START, "2025-01-15T08:00:00Z"),
    (phENCOUNTER_END, "2025-01-15T09:00:00Z"),
    (phCURRENT_TIMESTAMP, ts),
    (phPERIOD_START, "2025-01-15T08:00:00Z"),
    (phPERIOD_END, "2025-01-15T09:00:00Z"),
    (phCONTENT_TYPE, ctype),
    (phBASE64_CONTENT, b64),
    (phCONTENT_SIZE, toString size),
    (phAPP_NAME, "FHIR Test App") ]

/-- The contained Encounter resource the older localizer synthesizes for the
default `#e1` reference. -/
def e1Encounter (patientId : String) : Json :=
  .obj
    [ ("resourceType", .str "Encounter"),
      ("id", .str "e1"),
      ("status", .str "finished"),
      ("class",
        .obj [("system", .str "http://terminology.hl7.org/CodeSystem/v3-ActCode"),
          ("code", .str "AMB")]),
      ("subject", .obj [("reference", .str ("Patient/" ++ patientId))]),
      ("period", .obj [("start", .str "2025-01-15T08:00:00Z"),
        ("end", .str "2025-01-15T09:00:00Z")]) ]

/-- The contained-synthesis step of the older localizer: when the effective
encounter reference is `#e1` and `parsed.contained` is falsy, the synthesized
contained Encounter array is assigned. -/
def addContainedV1 (encounterReference : String) (patientId : String) (parsed : Json) :
    Json :=
  if encounterReference = "#e1" && !(jsTruthyOpt (jsGet parsed "contained")) then
    jsSet parsed "contained" (.arr [e1Encounter patientId])
  else parsed

/-- `localizeTemplate` of the older localizer, modelled on the parsed template
like the current variant. -/
def localizeTemplateV1 (template : Json) (opts : LocalizationOptions) (b64 : String)
    (size : Nat) (ctype : String) (ts : String) (nowMs : Nat) : Json :=
  let idv := opts.type ++ "-" ++ toString nowMs
  let parsed := Json.mapStr (substLeaf (pairsV1 opts ts idv b64 size ctype nowMs)) template
  addContainedV1 (jsOrOpt opts.encounterReference "#e1") opts.patientId parsed

-- ### Request executor data model (fhir-request, both variants).

/-- A decoded FHIR server configuration (source interface `FHIRConfig`). The
executor obtains it by `JSON.parse`ing a config file into this shape. -/
structure FHIRConfig where
  name : String
  fhirBaseUrl : String
  accessToken : Option String := none
  mode : String
deriving DecidableEq

/-- One file of the `.fhir-configs` directory: its file name, its modification
time in milliseconds, and its decoded content. -/
structure ConfigFile where
  fname : String
  mtimeMs : Nat
  cfg : FHIRConfig
deriving DecidableEq

/-- The transient request description (source interface `RequestSpec`).
`headers` models the caller's `Record<string, string>` as an ordered
association list whose later entries override earlier ones. -/
structure RequestSpecM where
  method : String
  path : String
  bodyFile : Option String := none
  headers : List (String × String) := []
  purpose : String := ""
  configName : Option String := none
  callerDir : Option String := none
deriving DecidableEq

/-- The zero-config error message of the strict executor variant. -/
def noConfigsMsgStrict : String :=
  "No FHIR configs found in .fhir-configs/\n" ++
  "Run the setup script to create a configuration:\n" ++
  "  bun .claude/skills/fhir-connectathon-notes/assets/config/setup.ts"

/-- The ambiguity error message of the strict executor variant, listing the
candidate config names. -/
def multiConfigsMsgStrict (configNames : String) : String :=
  "Multiple FHIR configs found: " ++ configNames ++ "\n" ++
  "Please specify which config to use by adding configName to execute():\n\n" ++
  "  await execute(\x7b\n    ...,\n    configName: \"your-config-name\",\n    ...\n  \x7d);\n"

/-- Configuration selection of the strict executor variant: an explicit name
is loaded (failing if absent); otherwise zero `.json` files is fatal with
setup instructions, two or more is fatal listing the candidates, and exactly
one is auto-selected. -/
def selectConfigStrict (configName : Option String) (configsDir : String)
    (dir : List ConfigFile) : Except String FHIRConfig :=
  match configName with
  | some name =>
      (match dir.find? (fun f => f.fname == name ++ ".json") with
       | some f => .ok f.cfg
       | none =>
           .error ("Config \"" ++ name ++ "\" not found at " ++ configsDir ++ "/" ++
             name ++ ".json"))
  | none =>
      let configFiles := dir.filter (fun f => strEndsWith f.fname ".json")
      match configFiles with
      | [] => .error noConfigsMsgStrict
      | [f] => .ok f.cfg
      | _ :: _ :: _ =>
          .error (multiConfigsMsgStrict
            (joinWith ", " (configFiles.map (fun f => replaceFirst ".json" "" f.fname))))

/-- Stable insertion into a list ordered by decreasing modification time
(models JavaScript stable `Array.prototype.sort` with the
`b.mtime - a.mtime` comparator). -/
def insertByMtimeDesc (x : ConfigFile) : List ConfigFile → List ConfigFile
  | [] => [x]
  | y :: ys => if y.mtimeMs < x.mtimeMs then x :: y :: ys else y :: insertByMtimeDesc x ys

/-- Sort config files by decreasing modification time, stably. -/
def sortByMtimeDesc (l : List ConfigFile) : List ConfigFile :=
  l.foldr insertByMtimeDesc []

/-- Configuration selection of the older executor variant
(`assets/lib/fhir-request.ts`): an explicit name is read directly (a missing
file surfaces as the read error); otherwise the `.json` files are sorted by
modification time and the most recent one is silently used; only an empty
directory is fatal. -/
def selectConfigLegacy (configName : Option String) (configsDir : String)
    (dir : List ConfigFile) : Except String FHIRConfig :=
  match configName with
  | some name =>
      (match dir.find? (fun f => f.fname == name ++ ".json") with
       | some f => .ok f.cfg
       | none =>
           .error ("ENOENT: no such file or directory, open " ++ configsDir ++ "/" ++
             name ++ ".json"))
  | none =>
      match sortByMtimeDesc (dir.filter (fun f => strEndsWith f.fname ".json")) with
      | [] => .error "No FHIR config found"
      | c :: _ => .ok c.cfg

/-- First-match lookup in a header map. -/
def lookupHeader : List (String × String) → String → Option String
  | [], _ => none
  | (k2, v) :: rest, k => if k2 = k then some v else lookupHeader rest k

/-- Header-map entry assignment: update the existing key in place, else append
(JavaScript object key semantics). -/
def setHeader : List (String × String) → String → String → List (String × String)
  | [], k, v => [(k, v)]
  | (k2, v2) :: rest, k, v =>
      if k2 = k then (k, v) :: rest else (k2, v2) :: setHeader rest k v

/-- Object spread `{...base, ...extra}` on header maps. -/
def mergeHeaders (base extra : List (String × String)) : List (String × String) :=
  extra.foldl (fun acc p => setHeader acc p.1 p.2) base

/-- Truthiness of the optional access token (`undefined` and `""` are falsy). -/
def tokenTruthy (o : Option String) : Bool :=
  match o with
  | some t => t != ""
  | none => false

/-- Header construction of `execute` (identical in both executor variants):
start from `Accept: application/fhir+json`, spread in the caller headers, add
the bearer token unless the config mode is `open` or the token is falsy, and
set `Content-Type: application/fhir+json` when a body file is given. -/
def buildHeaders (spec : RequestSpecM) (config : FHIRConfig) : List (String × String) :=
  let h0 := mergeHeaders [("Accept", "application/fhir+json")] spec.headers
  let h1 :=
    if tokenTruthy config.accessToken && config.mode != "open" then
      setHeader h0 "Authorization" ("Bearer " ++ config.accessToken.getD "")
    else h0
  if spec.bodyFile.isSome then setHeader h1 "Content-Type" "application/fhir+json" else h1

/-- An observable action of the executor after the response arrives. -/
inductive ExecEvent where
  | fileWrite (path : String) (content : String)
  | exitProc (code : Nat)
deriving DecidableEq

/-- The received HTTP response, as the executor observes it. -/
structure HttpResponseM where
  status : Nat
  statusText : String
  rheaders : List (String × String)
  body : String
deriving DecidableEq

/-- The response metadata object the executor persists. -/
def responseMetadata (resp : HttpResponseM) (tsReq tsResp : String) (durMs : Nat) : Json :=
  .obj
    [ ("timestamp", .str tsResp),
      ("httpStatus", .num resp.status),
      ("statusText", .str resp.statusText),
      ("headers", .obj (resp.rheaders.map (fun p => (p.1, Json.str p.2)))),
      ("timing",
        .obj [("requestSentAt", .str tsReq), ("responseReceivedAt", .str tsResp),
          ("durationMs", .num durMs)]) ]

/-- The response-handling tail of `execute` (identical in both executor
variants): parse the body as JSON to pick the `.json`/`.txt` extension, write
`response-metadata.json` and `response-body.*` into the output directory, then
terminate the process with exit code 1 when the status is 400 or above. -/
def responsePhase (outputDir : String) (resp : HttpResponseM) (tsReq tsResp : String)
    (durMs : Nat) : List ExecEvent :=
  let parsed := jsonParse resp.body
  let ext := match parsed with | some _ => "json" | none => "txt"
  let bodyOut := match parsed with | some j => Json.render j | none => resp.body
  [ ExecEvent.fileWrite (outputDir ++ "/response-metadata.json")
      (Json.render (responseMetadata resp tsReq tsResp durMs)),
    ExecEvent.fileWrite (outputDir ++ "/response-body." ++ ext) bodyOut ] ++
  (if resp.status ≥ 400 then [ExecEvent.exitProc 1] else [])

-- ### File-system-traced localizer entry point (library API).

/-- One file system operation performed by the localizer. -/
inductive FsOp where
  | statCheck (path : String)
  | fileRead (path : String)
  | fileWrite (path : String)
  | genRun (generatorName : String)
deriving DecidableEq

/-- The file system as the localizer observes it. -/
structure FsEnv where
  pathExists : String → Bool
  readFile : String → Option String

/-- Render a directory held as reversed path segments (the segment list of
`/a/b` from the current directory upward is `[b, a]`). -/
def renderPathRev (rev : List String) : String := "/" ++ joinWith "/" rev.reverse

/-- `getProjectRoot`: walk from the current directory upward until a directory
containing `.fhir-configs` exists, recording each existence probe; reaching
the file system root without a hit is fatal. -/
def getProjectRootT (fs : FsEnv) : List String → List FsOp × Except String String
  | [] => ([], .error "Could not find project root (no .fhir-configs directory found)")
  | seg :: rest =>
      let p := renderPathRev (seg :: rest) ++ "/.fhir-configs"
      if fs.pathExists p then ([.statCheck p], .ok (renderPathRev (seg :: rest)))
      else
        match getProjectRootT fs rest with
        | (t, r) => (FsOp.statCheck p :: t, r)

/-- The generator-to-output-file table inside `generateContent`. -/
def generatorOutputMap : List (String × String) :=
  [ ("generate-pdf.ts", "consultation-note.pdf"),
    ("generate-cda-xml.ts", "discharge-summary.cda.xml"),
    ("generate-xhtml.ts", "discharge-summary.xhtml"),
    ("generate-html.ts", "progress-note.html"),
    ("generate-large-file.ts", "large-note.txt") ]

/-- Content acquisition of the localizer: run a generator (existence probe,
import, output probe, read) or read a static sample file (existence probe,
read). Returns the trace and the raw content text. -/
def acquireContent (fs : FsEnv) (skillRoot : String) (m : TemplateMapping) :
    List FsOp × Except String String :=
  match m.contentGenerator with
  | some gen =>
      let genPath := skillRoot ++ "/assets/sample-content/" ++ gen
      if fs.pathExists genPath = false then
        ([.statCheck genPath], .error ("Generator not found: " ++ genPath))
      else
        (match lookupStr generatorOutputMap gen with
         | none => ([.statCheck genPath, .genRun gen], .error ("Unknown generator: " ++ gen))
         | some outName =>
             let contentPath := skillRoot ++ "/assets/sample-content/" ++ outName
             if fs.pathExists contentPath = false then
               ([.statCheck genPath, .genRun gen, .statCheck contentPath],
                 .error ("Generator did not create expected file: " ++ outName))
             else
               match fs.readFile contentPath with
               | some text =>
                   ([.statCheck genPath, .genRun gen, .statCheck contentPath,
                     .fileRead contentPath], .ok text)
               | none =>
                   ([.statCheck genPath, .genRun gen, .statCheck contentPath,
                     .fileRead contentPath],
                     .error ("ENOENT: no such file or directory, open " ++ contentPath)))
  | none =>
      match m.contentFile with
      | some fname =>
          let contentPath := skillRoot ++ "/assets/sample-content/" ++ fname
          if fs.pathExists contentPath = false then
            ([.statCheck contentPath], .error ("Content file not found: " ++ contentPath))
          else
            (match fs.readFile contentPath with
             | some text => ([.statCheck contentPath, .fileRead contentPath], .ok text)
             | none =>
                 ([.statCheck contentPath, .fileRead contentPath],
                   .error ("ENOENT: no such file or directory, open " ++ contentPath)))
      | none => ([], .error "No content source specified in mapping")

/-- The library entry point `localizeDocumentReference`, with its file system
operations recorded in order: project root discovery (twice — `getSkillRoot`
repeats the walk), the mapping check, content acquisition, the template read
(the file text is `JSON.parse`d here, substitution being modelled on the
parsed tree), localization, and the optional output write. -/
def localizeDocumentReferenceT (fs : FsEnv) (cwdRev : List String)
    (opts : LocalizationOptions) (tp : TimeParts) (ts : String) (nowMs : Nat) :
    List FsOp × Except String Json :=
  let (t1, pr) := getProjectRootT fs cwdRev
  match pr with
  | .error e => (t1, .error e)
  | .ok projectRoot =>
      let (t2, _) := getProjectRootT fs cwdRev
      let skillRoot := projectRoot ++ "/.claude/skills/write-clinical-notes"
      match lookupStr TEMPLATE_MAPPINGS opts.type with
      | none => (t1 ++ t2, .error (unknownTypeMsg opts.type))
      | some m =>
          let (t3, content) := acquireContent fs skillRoot m
          match content with
          | .error e => (t1 ++ t2 ++ t3, .error e)
          | .ok contentText =>
              let templatePath := skillRoot ++ "/assets/templates/" ++ m.template
              match fs.readFile templatePath with
              | none =>
                  (t1 ++ t2 ++ t3 ++ [.fileRead templatePath],
                    .error ("ENOENT: no such file or directory, open " ++ templatePath))
              | some templateText =>
                  match jsonParse templateText with
                  | none =>
                      (t1 ++ t2 ++ t3 ++ [.fileRead templatePath],
                        .error "SyntaxError: JSON.parse failed on localized template")
                  | some template =>
                      match localizeDocRefCore opts template contentText tp ts nowMs with
                      | .error e => (t1 ++ t2 ++ t3 ++ [.fileRead templatePath], .error e)
                      | .ok doc =>
                          if opts.writeToFile = some false then
                            (t1 ++ t2 ++ t3 ++ [.fileRead templatePath], .ok doc)
                          else
                            let outputDir := match opts.outputDir with
                              | some d => d
                              | none => projectRoot ++ "/localized/" ++ opts.server
                            (t1 ++ t2 ++ t3 ++ [.fileRead templatePath,
                              .fileWrite (outputDir ++ "/" ++ opts.type ++ "-note.json")],
                              .ok doc)

-- ### Support lemmas.

/-- A string with no left-brace character: placeholder tokens cannot occur in
it, so replacement chains leave it unchanged. -/
def NoBrace (s : String) : Prop := ∀ c ∈ s.data, c ≠ braceL

instance (s : String) : Decidable (NoBrace s) :=
  List.decidableBAll (fun c => c ≠ braceL) s.data

theorem strData_append (a b : String) : (a ++ b).data = a.data ++ b.data := by
  cases a; cases b; rfl

theorem noBrace_append {a b : String} (ha : NoBrace a) (hb : NoBrace b) :
    NoBrace (a ++ b) := by
  intro c hc
  rw [strData_append] at hc
  rcases List.mem_append.mp hc with h | h
  · exact ha c h
  · exact hb c h

theorem replaceFuel_not_occurs (pat repl : List Char) :
    ∀ (n : Nat) (s : List Char), containsSub pat s = false → replaceFuel pat repl n s = s
  | _, [], _ => by cases ‹Nat› <;> rfl
  | 0, _ :: _, _ => rfl
  | n + 1, c :: cs, h => by
      have h2 := h
      unfold containsSub at h2
      rw [Bool.or_eq_false_iff] at h2
      unfold replaceFuel
      rw [if_neg (by simp [h2.1])]
      rw [replaceFuel_not_occurs pat repl n cs h2.2]

theorem replaceAll_not_occurs (pat repl s : String)
    (h : containsSub pat.data s.data = false) : replaceAll pat repl s = s := by
  unfold replaceAll
  rw [replaceFuel_not_occurs pat.data repl.data s.data.length s.data h]

theorem isPrefixOf_self : ∀ l : List Char, l.isPrefixOf l = true
  | [] => rfl
  | a :: l => by simp [List.isPrefixOf, isPrefixOf_self l]

theorem containsSub_headBrace (pt : List Char) :
    ∀ (s : List Char), (∀ c ∈ s, c ≠ braceL) → containsSub (braceL :: pt) s = false
  | [], _ => rfl
  | c :: cs, h => by
      unfold containsSub
      rw [Bool.or_eq_false_iff]
      constructor
      · unfold List.isPrefixOf
        rw [Bool.and_eq_false_iff]
        left
        have : c ≠ braceL := h c (by simp)
        simp [beq_iff_eq]
        exact fun hh => absurd hh.symm this
      · exact containsSub_headBrace pt cs (fun d hd => h d (by simp [hd]))

theorem replaceAll_headBrace (pat repl s : String) (hp : pat.data.head? = some braceL)
    (hs : NoBrace s) : replaceAll pat repl s = s := by
  apply replaceAll_not_occurs
  cases hpat : pat.data with
  | nil => rw [hpat] at hp; simp at hp
  | cons c pt =>
      rw [hpat] at hp
      simp at hp
      subst hp
      exact containsSub_headBrace pt s.data hs

theorem replaceFuel_splice (pt repl : List Char) :
    ∀ (lit : List Char) (n : Nat), (∀ c ∈ lit, c ≠ braceL) → n ≥ lit.length + 1 →
      replaceFuel (braceL :: pt) repl n (lit ++ braceL :: pt) = lit ++ repl
  | [], n, _, hn => by
      match n, hn with
      | m + 1, _ =>
          simp only [List.nil_append]
          unfold replaceFuel
          rw [if_pos (isPrefixOf_self _)]
          simp only [List.length_cons, Nat.add_sub_cancel, List.drop_length]
          cases m <;> simp [replaceFuel]
  | c :: lit2, n, hlit, hn => by
      match n, hn with
      | m + 1, hn =>
          simp only [List.cons_append]
          unfold replaceFuel
          rw [if_neg]
          · rw [replaceFuel_splice pt repl lit2 m (fun d hd => hlit d (by simp [hd]))
              (by simp only [List.length_cons] at hn; omega)]
          · unfold List.isPrefixOf
            have hcb : c ≠ braceL := hlit c (by simp)
            simp only [Bool.and_eq_true, beq_iff_eq]
            intro hh
            exact hcb hh.1.symm

theorem replaceAll_splice (pat repl lit : String) (hp : pat.data.head? = some braceL)
    (hl : NoBrace lit) : replaceAll pat repl (lit ++ pat) = lit ++ repl := by
  cases hpat : pat.data with
  | nil => rw [hpat] at hp; simp at hp
  | cons c pt =>
      rw [hpat] at hp
      simp at hp
      subst hp
      unfold replaceAll
      cases pat with
      | mk pd =>
          cases lit with
          | mk ld =>
              cases repl with
              | mk rd =>
                  simp only [String.data] at hpat
                  subst hpat
                  show String.mk (replaceFuel (braceL :: pt) rd
                    ((String.mk ld ++ String.mk (braceL :: pt)).data).length
                    ((String.mk ld ++ String.mk (braceL :: pt)).data)) = _
                  rw [strData_append]
                  simp only [String.data]
                  rw [replaceFuel_splice pt rd ld _ hl (by simp [List.length_append])]
                  rfl

theorem replaceAll_self (pat repl : String) (hp : pat.data.head? = some braceL) :
    replaceAll pat repl pat = repl := by
  have h := replaceAll_splice pat repl "" hp (by intro c hc; simp at hc)
  have he : ("" ++ pat : String) = pat := by cases pat; rfl
  have he2 : ("" ++ repl : String) = repl := by cases repl; rfl
  rw [he, he2] at h
  exact h

theorem substLeaf_nil (s : String) : substLeaf [] s = s := rfl

theorem substLeaf_cons (p : String × String) (ps : List (String × String)) (s : String) :
    substLeaf (p :: ps) s = substLeaf ps (replaceAll p.1 p.2 s) := rfl

theorem substLeaf_append (a b : List (String × String)) (s : String) :
    substLeaf (a ++ b) s = substLeaf b (substLeaf a s) := by
  unfold substLeaf
  exact List.foldl_append _ _ _ _

theorem substLeaf_headBrace (ps : List (String × String)) (s : String)
    (hp : ∀ p ∈ ps, p.1.data.head? = some braceL) (hs : NoBrace s) :
    substLeaf ps s = s := by
  induction ps with
  | nil => rfl
  | cons p rest ih =>
      rw [substLeaf_cons, replaceAll_headBrace p.1 p.2 s (hp p (by simp)) hs]
      exact ih (fun q hq => hp q (by simp [hq]))

theorem substLeaf_not_occurs (ps : List (String × String)) (s : String)
    (h : ∀ p ∈ ps, containsSub p.1.data s.data = false) : substLeaf ps s = s := by
  induction ps with
  | nil => rfl
  | cons p rest ih =>
      rw [substLeaf_cons, replaceAll_not_occurs p.1 p.2 s (h p (by simp))]
      exact ih (fun q hq => h q (by simp [hq]))

-- ### Base64 facts.

theorem b64v_b64c (n : Nat) (h : n < 64) : b64v (b64c n) = n := by
  have hd : ∀ m : Nat, m < 64 → b64v (b64c m) = m := by decide
  exact hd n h

theorem b64c_ne_brace (n : Nat) : b64c n ≠ braceL := by
  unfold b64c
  split
  · next hlt =>
      have hm : b64Table.get ⟨n, hlt⟩ ∈ b64Table := List.get_mem b64Table n hlt
      have hnb : braceL ∉ b64Table := by decide
      exact fun he => hnb (he ▸ hm)
  · decide

theorem b64c_ne_pad (n : Nat) : b64c n ≠ '=' := by
  unfold b64c
  split
  · next hlt =>
      have hm : b64Table.get ⟨n, hlt⟩ ∈ b64Table := List.get_mem b64Table n hlt
      have hnp : '=' ∉ b64Table := by decide
      exact fun he => hnp (he ▸ hm)
  · decide

theorem base64Encode_no_brace : ∀ (l : List Nat), ∀ c ∈ base64Encode l, c ≠ braceL := by
  intro l
  induction l using base64Encode.induct with
  | case1 => intro c hc; simp [base64Encode] at hc
  | case2 a =>
      intro c hc
      simp only [base64Encode, List.mem_cons, List.mem_singleton, List.not_mem_nil,
        or_false] at hc
      rcases hc with h | h | h | h <;> subst h
      · apply b64c_ne_brace
      · apply b64c_ne_brace
      · decide
      · decide
  | case3 a b =>
      intro c hc
      simp only [base64Encode, List.mem_cons, List.mem_singleton, List.not_mem_nil,
        or_false] at hc
      rcases hc with h | h | h | h <;> subst h
      · apply b64c_ne_brace
      · apply b64c_ne_brace
      · apply b64c_ne_brace
      · decide
  | case4 a b c2 rest ih =>
      intro c hc
      simp only [base64Encode, List.mem_cons] at hc
      rcases hc with h | h | h | h | h
      · subst h; apply b64c_ne_brace
      · subst h; apply b64c_ne_brace
      · subst h; apply b64c_ne_brace
      · subst h; apply b64c_ne_brace
      · exact ih c h

theorem base64EncodeStr_noBrace (l : List Nat) : NoBrace (base64EncodeStr l) :=
  fun c hc => base64Encode_no_brace l c hc

theorem base64EncodeStr_data (l : List Nat) : (base64EncodeStr l).data = base64Encode l := rfl

/-- Base64 decoding undoes base64 encoding on byte lists. -/
theorem base64_roundtrip : ∀ (l : List Nat), (∀ b ∈ l, b < 256) →
    base64Decode (base64Encode l) = some l := by
  intro l
  induction l using base64Encode.induct with
  | case1 => intro _; rfl
  | case2 a =>
      intro h
      have ha : a < 256 := h a (by simp)
      have h1 : a / 4 < 64 := by omega
      have h2 : a % 4 * 16 < 64 := by omega
      simp only [base64Encode, base64Decode]
      rw [if_pos (by simp)]
      rw [b64v_b64c _ h1, b64v_b64c _ h2]
      simp only [Option.some.injEq, List.cons.injEq, and_true]
      omega
  | case3 a b =>
      intro h
      have ha : a < 256 := h a (by simp)
      have hb : b < 256 := h b (by simp)
      have h1 : a / 4 < 64 := by omega
      have h2 : a % 4 * 16 + b / 16 < 64 := by omega
      have h3 : b % 16 * 4 < 64 := by omega
      simp only [base64Encode, base64Decode]
      rw [if_neg (fun hcontra => b64c_ne_pad _ hcontra.1), if_pos (by simp [b64c_ne_pad])]
      rw [b64v_b64c _ h1, b64v_b64c _ h2, b64v_b64c _ h3]
      simp only [Option.some.injEq, List.cons.injEq, and_true]
      exact ⟨by omega, by omega⟩
  | case4 a b c rest ih =>
      intro h
      have ha : a < 256 := h a (by simp)
      have hb : b < 256 := h b (by simp)
      have hc : c < 256 := h c (by simp)
      have h1 : a / 4 < 64 := by omega
      have h2 : a % 4 * 16 + b / 16 < 64 := by omega
      have h3 : b % 16 * 4 + c / 64 < 64 := by omega
      have h4 : c % 64 < 64 := by omega
      have hrest := ih (fun x hx => h x (by simp [hx]))
      simp only [base64Encode, base64Decode]
      rw [if_neg (fun hcontra => b64c_ne_pad _ hcontra.1),
        if_neg (fun hcontra => b64c_ne_pad _ hcontra.1)]
      rw [hrest]
      rw [b64v_b64c _ h1, b64v_b64c _ h2, b64v_b64c _ h3, b64v_b64c _ h4]
      simp only [Option.some.injEq, List.cons.injEq, and_true]
      exact ⟨by omega, by omega, by omega⟩

/-- UTF-8 bytes are bytes. -/
theorem utf8Bytes_lt_256 (s : String) : ∀ b ∈ utf8Bytes s, b < 256 := by
  intro b hb
  unfold utf8Bytes at hb
  rw [List.mem_flatten] at hb
  obtain ⟨l, hl, hbl⟩ := hb
  rw [List.mem_map] at hl
  obtain ⟨c, _, hcl⟩ := hl
  subst hcl
  have hvalid : c.toNat < 1114112 := by
    have hv := c.valid
    have heq : c.toNat = c.val.toNat := rfl
    rcases hv with h | ⟨_, h⟩
    · have h2 : c.val.toNat < 55296 := h
      omega
    · have h2 : c.val.toNat < 1114112 := h
      omega
  unfold utf8EncodeCharM at hbl
  split at hbl
  · simp at hbl; omega
  · split at hbl
    · simp at hbl
      rcases hbl with h | h <;> omega
    · split at hbl
      · simp at hbl
        rcases hbl with h | h | h <;> omega
      · simp at hbl
        rcases hbl with h | h | h | h <;> omega

-- ### Except and JSON-access lemmas.

theorem except_bind_ok {ε α β : Type} (A : Except ε α) (B : α → Except ε β) (out : β) :
    (A >>= B) = .ok out ↔ ∃ x, A = .ok x ∧ B x = .ok out := by
  cases A with
  | error e => simp [Except.bind, Bind.bind]
  | ok x => simp [Except.bind, Bind.bind]

theorem lookupField_setField_ne (fs : List (String × Json)) (k k2 : String) (v : Json)
    (h : k2 ≠ k) : lookupField (setField fs k v) k2 = lookupField fs k2 := by
  induction fs with
  | nil =>
      simp only [setField, lookupField]
      rw [if_neg (fun he => h he.symm)]
  | cons p rest ih =>
      obtain ⟨pk, pv⟩ := p
      by_cases hpk : pk = k
      · subst hpk
        simp only [setField, if_pos rfl, lookupField]
        rw [if_neg (fun he => h he.symm), if_neg (fun he => h he.symm)]
      · simp only [setField, if_neg hpk, lookupField]
        by_cases hpk2 : pk = k2
        · rw [if_pos hpk2, if_pos hpk2]
        · rw [if_neg hpk2, if_neg hpk2, ih]

theorem jsGet_jsSet_ne (j : Json) (k k2 : String) (v : Json) (h : k2 ≠ k) :
    jsGet (jsSet j k v) k2 = jsGet j k2 := by
  cases j <;> simp only [jsSet, jsGet]
  exact lookupField_setField_ne _ _ _ _ h

/-- The empty-encounter cleanup touches only the `context` field. -/
theorem deleteEmptyEncounter_jsGet_ne (hasRef : Bool) (parsed out : Json) (k : String)
    (h : deleteEmptyEncounter hasRef parsed = .ok out) (hk : k ≠ "context") :
    jsGet out k = jsGet parsed k := by
  unfold deleteEmptyEncounter at h
  split at h
  · cases h; rfl
  · split at h
    · cases h; rfl
    · split at h
      · cases h; rfl
      · split at h
        · cases h; rfl
        · split at h
          · rw [except_bind_ok] at h
            obtain ⟨b, _, h2⟩ := h
            split at h2
            · cases h2; rfl
            · cases h2
              exact jsGet_jsSet_ne _ _ _ _ hk
          · cases h

/-- The contained-resource block touches only the `contained` field. -/
theorem applyContained_jsGet_ne (ec : Option ContainedInput) (parsed out : Json)
    (k : String) (h : applyContained ec parsed = .ok out) (hk : k ≠ "contained") :
    jsGet out k = jsGet parsed k := by
  unfold applyContained at h
  split at h
  · cases h; rfl
  · split at h
    · cases h; rfl
    · rw [except_bind_ok] at h
      obtain ⟨enc, _, h2⟩ := h
      split at h2
      · cases h2
        exact jsGet_jsSet_ne _ _ _ _ hk
      · split at h2
        · cases h2
        · cases h2
          exact jsGet_jsSet_ne _ _ _ _ hk

theorem substLeaf_cons2 (a b : String) (ps : List (String × String)) (s : String) :
    substLeaf ((a, b) :: ps) s = substLeaf ps (replaceAll a b s) := rfl

theorem fst_pair (a b : String) : (Prod.mk a b).1 = a := rfl

theorem encPairs_headBrace (o : LocalizationOptions) :
    ∀ p ∈ encPairs o, p.1.data.head? = some braceL := by
  intro p hp
  unfold encPairs at hp
  split at hp <;>
    simp only [List.mem_cons, List.not_mem_nil, or_false] at hp <;>
    rcases hp with rfl | rfl <;> (rw [fst_pair]; decide)

/-- Replacement chains whose patterns are placeholder tokens leave brace-free
strings unchanged. -/
theorem substLeaf_encPairs_noBrace (o : LocalizationOptions) (s : String)
    (hs : NoBrace s) : substLeaf (encPairs o) s = s :=
  substLeaf_headBrace _ _ (encPairs_headBrace o) hs

theorem substLeaf_contentType (o : LocalizationOptions) (ts idv b64 : String) (sz : Nat)
    (ct : String) (hct : NoBrace ct) :
    substLeaf (basePairs o ts idv b64 sz ct ++ encPairs o) phCONTENT_TYPE = ct := by
  rw [substLeaf_append]
  unfold basePairs
  rw [substLeaf_cons2, replaceAll_not_occurs _ _ _ (by decide)]
  rw [substLeaf_cons2, replaceAll_not_occurs _ _ _ (by decide)]
  rw [substLeaf_cons2, replaceAll_not_occurs _ _ _ (by decide)]
  rw [substLeaf_cons2, replaceAll_not_occurs _ _ _ (by decide)]
  rw [substLeaf_cons2, replaceAll_not_occurs _ _ _ (by decide)]
  rw [substLeaf_cons2, replaceAll_not_occurs _ _ _ (by decide)]
  rw [substLeaf_cons2, replaceAll_not_occurs _ _ _ (by decide)]
  rw [substLeaf_cons2, replaceAll_not_occurs _ _ _ (by decide)]
  rw [substLeaf_cons2, replaceAll_not_occurs _ _ _ (by decide)]
  rw [substLeaf_cons2, replaceAll_self _ _ (by decide)]
  rw [substLeaf_headBrace _ _ ?hfact hct]
  · exact substLeaf_encPairs_noBrace o ct hct
  · intro p hp
    simp only [List.mem_cons, List.not_mem_nil, or_false] at hp
    rcases hp with rfl | rfl | rfl <;> (rw [fst_pair]; decide)

theorem substLeaf_base64 (o : LocalizationOptions) (ts idv b64 : String) (sz : Nat)
    (ct : String) (hb : NoBrace b64) :
    substLeaf (basePairs o ts idv b64 sz ct ++ encPairs o) phBASE64_CONTENT = b64 := by
  rw [substLeaf_append]
  unfold basePairs
  rw [substLeaf_cons2, replaceAll_not_occurs _ _ _ (by decide)]
  rw [substLeaf_cons2, replaceAll_not_occurs _ _ _ (by decide)]
  rw [substLeaf_cons2, replaceAll_not_occurs _ _ _ (by decide)]
  rw [substLeaf_cons2, replaceAll_not_occurs _ _ _ (by decide)]
  rw [substLeaf_cons2, replaceAll_not_occurs _ _ _ (by decide)]
  rw [substLeaf_cons2, replaceAll_not_occurs _ _ _ (by decide)]
  rw [substLeaf_cons2, replaceAll_not_occurs _ _ _ (by decide)]
  rw [substLeaf_cons2, replaceAll_not_occurs _ _ _ (by decide)]
  rw [substLeaf_cons2, replaceAll_not_occurs _ _ _ (by decide)]
  rw [substLeaf_cons2, replaceAll_not_occurs _ _ _ (by decide)]
  rw [substLeaf_cons2, replaceAll_self _ _ (by decide)]
  rw [substLeaf_headBrace _ _ ?hfact hb]
  · exact substLeaf_encPairs_noBrace o b64 hb
  · intro p hp
    simp only [List.mem_cons, List.not_mem_nil, or_false] at hp
    rcases hp with rfl | rfl <;> (rw [fst_pair]; decide)

theorem substLeaf_base_encRef (o : LocalizationOptions) (ts idv b64 : String) (sz : Nat)
    (ct : String) :
    substLeaf (basePairs o ts idv b64 sz ct) phENCOUNTER_REFERENCE = phENCOUNTER_REFERENCE := by
  unfold basePairs
  rw [substLeaf_cons2, replaceAll_not_occurs _ _ _ (by decide)]
  rw [substLeaf_cons2, replaceAll_not_occurs _ _ _ (by decide)]
  rw [substLeaf_cons2, replaceAll_not_occurs _ _ _ (by decide)]
  rw [substLeaf_cons2, replaceAll_not_occurs _ _ _ (by decide)]
  rw [substLeaf_cons2, replaceAll_not_occurs _ _ _ (by decide)]
  rw [substLeaf_cons2, replaceAll_not_occurs _ _ _ (by decide)]
  rw [substLeaf_cons2, replaceAll_not_occurs _ _ _ (by decide)]
  rw [substLeaf_cons2, replaceAll_not_occurs _ _ _ (by decide)]
  rw [substLeaf_cons2, replaceAll_not_occurs _ _ _ (by decide)]
  rw [substLeaf_cons2, replaceAll_not_occurs _ _ _ (by decide)]
  rw [substLeaf_cons2, replaceAll_not_occurs _ _ _ (by decide)]
  rw [substLeaf_cons2, replaceAll_not_occurs _ _ _ (by decide)]
  rw [substLeaf_cons2, replaceAll_not_occurs _ _ _ (by decide)]
  rfl

/-- With a truthy encounter reference free of braces, the template chain maps
the encounter-reference token to the supplied reference verbatim. -/
theorem substLeaf_encRef_some (o : LocalizationOptions) (ts idv b64 : String) (sz : Nat)
    (ct : String) (r : String) (hr : o.encounterReference = some r) (hne : r ≠ "")
    (hb : NoBrace r) :
    substLeaf (basePairs o ts idv b64 sz ct ++ encPairs o) phENCOUNTER_REFERENCE = r := by
  rw [substLeaf_append, substLeaf_base_encRef]
  unfold encPairs
  rw [if_pos (by simp [strTruthy, hr, hne])]
  rw [hr]
  rw [substLeaf_cons2, replaceAll_self _ _ (by decide)]
  show substLeaf _ r = r
  rw [substLeaf_cons2, replaceAll_headBrace _ _ _ (by decide) hb]
  rfl

/-- With no (truthy) encounter reference, the template chain maps the
encounter-reference token to the empty string. -/
theorem substLeaf_encRef_none (o : LocalizationOptions) (ts idv b64 : String) (sz : Nat)
    (ct : String) (hr : strTruthy o.encounterReference = false) :
    substLeaf (basePairs o ts idv b64 sz ct ++ encPairs o) phENCOUNTER_REFERENCE = "" := by
  rw [substLeaf_append, substLeaf_base_encRef]
  unfold encPairs
  rw [if_neg (by simp [hr])]
  rw [substLeaf_cons2, replaceAll_self _ _ (by decide)]
  rw [substLeaf_cons2, replaceAll_not_occurs _ _ _ (by decide)]
  rfl

/-- Reading `content` from the substituted template exposes the attachment
with its substituted leaves. -/
theorem jsGet_mapStr_docTemplate_content (f : String → String) :
    jsGet (Json.mapStr f docTemplateSpec) "content" =
      some (.arr [.obj [("attachment",
        .obj [("contentType", .str (f phCONTENT_TYPE)),
          ("data", .str (f phBASE64_CONTENT))])]]) := rfl

/-- Reading `context` from the substituted template exposes the encounter
entry and period with their substituted leaves. -/
theorem jsGet_mapStr_docTemplate_context (f : String → String) :
    jsGet (Json.mapStr f docTemplateSpec) "context" =
      some (.obj
        [ ("encounter",
            .arr [.obj [("reference", .str (f phENCOUNTER_REFERENCE)),
              ("display", .str (f phENCOUNTER_DISPLAY))]]),
          ("period", .obj [("start", .str (f phPERIOD_START)),
            ("end", .str (f phPERIOD_END))]) ]) := rfl

/-- Every content type declared in the mapping table is brace-free. -/
theorem mapping_noBrace (ty : String) (m : TemplateMapping)
    (hm : lookupStr TEMPLATE_MAPPINGS ty = some m) : NoBrace m.contentType := by
  simp only [TEMPLATE_MAPPINGS, lookupStr] at hm
  repeat' split at hm
  all_goals first
    | (cases hm; decide)
    | simp at hm

/-- Read `content[0].attachment[k]` from a document. -/
def attachField (doc : Json) (k : String) : Option Json :=
  match jsGet doc "content" with
  | some c =>
      match arrIdx c 0 with
      | some e =>
          match jsGet e "attachment" with
          | some a => jsGet a k
          | none => none
      | none => none
  | none => none

theorem attachField_eq (doc : Json) (a b : String)
    (h : jsGet doc "content" = some (.arr [.obj [("attachment",
      .obj [("contentType", .str a), ("data", .str b)])]])) :
    attachField doc "contentType" = some (.str a) ∧
    attachField doc "data" = some (.str b) := by
  unfold attachField
  rw [h]
  exact ⟨rfl, rfl⟩

/-- Localizing the spec-modelled template puts the given content type and
base64 payload into `content[0].attachment`. -/
theorem localizeTemplate_attach (opts : LocalizationOptions) (b64 : String) (sz : Nat)
    (ct ts : String) (nowMs : Nat) (out : Json) (hb : NoBrace b64) (hctb : NoBrace ct)
    (hok : localizeTemplate docTemplateSpec opts b64 sz ct ts nowMs = .ok out) :
    attachField out "contentType" = some (.str ct) ∧
    attachField out "data" = some (.str b64) := by
  simp only [localizeTemplate] at hok
  rw [except_bind_ok] at hok
  obtain ⟨p2, hdel, happ⟩ := hok
  have hout_content : jsGet out "content" = jsGet p2 "content" :=
    applyContained_jsGet_ne _ _ _ _ happ (by decide)
  have hp2_content := deleteEmptyEncounter_jsGet_ne _ _ _ "content" hdel (by decide)
  have hct := substLeaf_contentType opts ts (opts.type ++ "-" ++ toString nowMs)
    b64 sz ct hctb
  have hb64 := substLeaf_base64 opts ts (opts.type ++ "-" ++ toString nowMs)
    b64 sz ct hb
  have hcontent : jsGet out "content" =
      some (.arr [.obj [("attachment", .obj [("contentType", .str ct),
        ("data", .str b64)])]]) := by
    rw [hout_content, hp2_content, jsGet_mapStr_docTemplate_content, hct, hb64]
  exact attachField_eq out _ _ hcontent

/-- Claim C1: for every document type key in the template mapping table,
localization produces a document (valid JSON by construction of the tree
model) whose `content[0].attachment.contentType` equals the mapping declared
MIME content type and whose `content[0].attachment.data` is the base64
encoding of — and decodes byte-identically to — the placeholder-substituted
content text computed before encoding. The template is the spec-modelled
`docTemplateSpec`, the template files being absent from the source tree. -/
theorem claim_C1
    (ty : String) (m : TemplateMapping) (hm : lookupStr TEMPLATE_MAPPINGS ty = some m)
    (opts : LocalizationOptions) (contentText : String) (tp : TimeParts) (ts : String)
    (nowMs : Nat) (out : Json) (hty : opts.type = ty)
    (hok : localizeDocRefCore opts docTemplateSpec contentText tp ts nowMs = .ok out) :
    attachField out "contentType" = some (.str m.contentType) ∧
    attachField out "data" =
      some (.str (base64EncodeStr
        (utf8Bytes (replaceContentPlaceholders contentText opts tp)))) ∧
    base64Decode (base64EncodeStr
        (utf8Bytes (replaceContentPlaceholders contentText opts tp))).data =
      some (utf8Bytes (replaceContentPlaceholders contentText opts tp)) := by
  simp only [localizeDocRefCore, hty, hm] at hok
  obtain ⟨h1, h2⟩ := localizeTemplate_attach opts
    (base64EncodeStr (utf8Bytes (replaceContentPlaceholders contentText opts tp)))
    (utf8Bytes (replaceContentPlaceholders contentText opts tp)).length
    m.contentType ts nowMs out
    (base64EncodeStr_noBrace _) (mapping_noBrace ty m hm) hok
  refine ⟨h1, h2, ?_⟩
  rw [base64EncodeStr_data]
  exact base64_roundtrip _ (utf8Bytes_lt_256 _)

def c1wOpts : LocalizationOptions := { type := "pdf", patientId := "p1", server := "smart" }

def c1wTp : TimeParts :=
  { currentDate := "2025-01-15", currentTime := "10:00",
    currentTimestamp := "2025-01-15T10:00:00Z",
    currentTimestampCDA := "20250115T100000-0500" }

/-- The document produced by the concrete C1 witness run. -/
def c1wOut : Json :=
  .obj
    [ ("resourceType", .str "DocumentReference"),
      ("status", .str "current"),
      ("identifier", .arr [.obj [("system", .str "https://example.com/fhir-test"),
        ("value", .str "pdf-5")]]),
      ("subject", .obj [("reference", .str "Patient/p1")]),
      ("date", .str "2025-01-15T10:00:00Z"),
      ("author", .arr [.obj [("reference", .str "Practitioner/example"),
        ("display", .str "Dr. Example Provider")]]),
      ("description", .str "FHIR Test App"),
      ("context", .obj [("period", .obj [("start", .str "2025-01-15T10:00:00Z"),
        ("end", .str "2025-01-15T10:00:00Z")])]),
      ("content", .arr [.obj [("attachment", .obj [("contentType", .str "application/pdf"),
        ("data", .str "SGVsbG8gbm90ZQ==")])]]) ]

/-- Witness for claim C1: the `pdf` mapping key, a concrete option set and
content text, with every hypothesis of `claim_C1` discharged at it. -/
theorem claim_C1_witness :
    localizeDocRefCore c1wOpts docTemplateSpec "Hello note" c1wTp
      "2025-01-15T10:00:00Z" 5 = .ok c1wOut ∧
    attachField c1wOut "contentType" = some (.str "application/pdf") ∧
    attachField c1wOut "data" = some (.str "SGVsbG8gbm90ZQ==") := by
  have hok : localizeDocRefCore c1wOpts docTemplateSpec "Hello note" c1wTp
      "2025-01-15T10:00:00Z" 5 = .ok c1wOut := by decide
  have h := claim_C1 "pdf"
    { template := "consultation-note-pdf.json", contentGenerator := some "generate-pdf.ts",
      contentType := "application/pdf", noteType := "Consultation note" }
    (by decide) c1wOpts "Hello note" c1wTp "2025-01-15T10:00:00Z" 5 c1wOut rfl hok
  exact ⟨hok, h.1, by rw [h.2.1]; decide⟩

/-- The substituted template, fields exposed. -/
theorem mapStr_docTemplate (f : String → String) :
    Json.mapStr f docTemplateSpec =
      .obj
        [ ("resourceType", .str (f "DocumentReference")),
          ("status", .str (f "current")),
          ("identifier", .arr [.obj [("system", .str (f phIDENTIFIER_SYSTEM)),
            ("value", .str (f phIDENTIFIER_VALUE))]]),
          ("subject", .obj [("reference", .str (f ("Patient/" ++ phPATIENT_ID)))]),
          ("date", .str (f phCURRENT_TIMESTAMP)),
          ("author", .arr [.obj [("reference", .str (f phAUTHOR_REFERENCE)),
            ("display", .str (f phAUTHOR_DISPLAY))]]),
          ("description", .str (f phAPP_NAME)),
          ("context",
            .obj
              [ ("encounter", .arr [.obj [("reference", .str (f phENCOUNTER_REFERENCE)),
                  ("display", .str (f phENCOUNTER_DISPLAY))]]),
                ("period", .obj [("start", .str (f phPERIOD_START)),
                  ("end", .str (f phPERIOD_END))]) ]),
          ("content", .arr [.obj [("attachment",
            .obj [("contentType", .str (f phCONTENT_TYPE)),
              ("data", .str (f phBASE64_CONTENT))])]]) ] := rfl

/-- With a truthy encounter reference the cleanup is skipped. -/
theorem deleteEmptyEncounter_true (parsed : Json) :
    deleteEmptyEncounter true parsed = .ok parsed := by
  unfold deleteEmptyEncounter
  rw [if_pos rfl]

/-- With no encounter reference, the empty-reference encounter entry of the
substituted template is deleted from `context`. -/
theorem deleteEmptyEncounter_docTemplate_none (f : String → String)
    (h0 : f phENCOUNTER_REFERENCE = "") :
    deleteEmptyEncounter false (Json.mapStr f docTemplateSpec) =
      .ok (jsSet (Json.mapStr f docTemplateSpec) "context"
        (.obj [("period", .obj [("start", .str (f phPERIOD_START)),
          ("end", .str (f phPERIOD_END))])])) := by
  rw [mapStr_docTemplate, h0]
  rfl

/-- Setting `context` on the substituted template and reading it back. -/
theorem jsGet_jsSet_mapStr_docTemplate (f : String → String) (v : Json) :
    jsGet (jsSet (Json.mapStr f docTemplateSpec) "context" v) "context" = some v := rfl

theorem jsGetIn_two (j v : Json) (k1 k2 : String) (h : jsGet j k1 = some v) :
    jsGetIn j [k1, k2] = jsGet v k2 := by
  unfold jsGetIn
  rw [h]
  show jsGetIn v [k2] = jsGet v k2
  unfold jsGetIn
  cases h2 : jsGet v k2 with
  | none => rfl
  | some u => rfl

/-- Localizing the spec-modelled template with no (truthy) encounter
reference yields a document with no `context.encounter` field at all. -/
theorem localizeTemplate_enc_none (opts : LocalizationOptions) (b64 : String) (sz : Nat)
    (ct ts : String) (nowMs : Nat) (out : Json)
    (hr : strTruthy opts.encounterReference = false)
    (hok : localizeTemplate docTemplateSpec opts b64 sz ct ts nowMs = .ok out) :
    jsGetIn out ["context", "encounter"] = none := by
  simp only [localizeTemplate, hr] at hok
  rw [except_bind_ok] at hok
  obtain ⟨p2, hdel, happ⟩ := hok
  have h0 := substLeaf_encRef_none opts ts (opts.type ++ "-" ++ toString nowMs) b64 sz ct hr
  rw [deleteEmptyEncounter_docTemplate_none _ h0] at hdel
  cases hdel
  have hctx := applyContained_jsGet_ne _ _ _ "context" happ (by decide)
  have hc2 : jsGet out "context" =
      some (.obj [("period", .obj [("start",
        .str (substLeaf (basePairs opts ts (opts.type ++ "-" ++ toString nowMs) b64 sz ct ++
          encPairs opts) phPERIOD_START)),
        ("end", .str (substLeaf (basePairs opts ts (opts.type ++ "-" ++ toString nowMs) b64
          sz ct ++ encPairs opts) phPERIOD_END))])]) :=
    hctx.trans (jsGet_jsSet_mapStr_docTemplate _ _)
  rw [jsGetIn_two out _ "context" "encounter" hc2]
  rfl

/-- Localizing the spec-modelled template with a truthy, brace-free encounter
reference puts it verbatim into every `context.encounter` entry. -/
theorem localizeTemplate_enc_some (opts : LocalizationOptions) (b64 : String) (sz : Nat)
    (ct ts : String) (nowMs : Nat) (out : Json) (r : String)
    (hr : opts.encounterReference = some r) (hne : r ≠ "") (hb : NoBrace r)
    (hok : localizeTemplate docTemplateSpec opts b64 sz ct ts nowMs = .ok out) :
    ∃ es, es ≠ [] ∧ jsGetIn out ["context", "encounter"] = some (.arr es) ∧
      ∀ e ∈ es, jsGet e "reference" = some (.str r) := by
  have hst : strTruthy opts.encounterReference = true := by simp [strTruthy, hr, hne]
  simp only [localizeTemplate, hst] at hok
  rw [except_bind_ok] at hok
  obtain ⟨p2, hdel, happ⟩ := hok
  rw [deleteEmptyEncounter_true] at hdel
  cases hdel
  have hctx := applyContained_jsGet_ne _ _ _ "context" happ (by decide)
  have hc2 := hctx.trans (jsGet_mapStr_docTemplate_context _)
  have h0 := substLeaf_encRef_some opts ts (opts.type ++ "-" ++ toString nowMs) b64 sz ct
    r hr hne hb
  have hval : jsGetIn out ["context", "encounter"] =
      some (.arr [.obj [("reference", .str r),
        ("display", .str (substLeaf (basePairs opts ts (opts.type ++ "-" ++ toString nowMs)
          b64 sz ct ++ encPairs opts) phENCOUNTER_DISPLAY))]]) := by
    rw [jsGetIn_two out _ "context" "encounter" hc2]
    rw [← h0]
    rfl
  refine ⟨_, by simp, hval, ?_⟩
  intro e he
  simp only [List.mem_singleton] at he
  subst he
  rfl

def c3wOpts : LocalizationOptions :=
  { type := "consultation", patientId := "p2", server := "smart",
    encounterReference := some "Encounter/visit-789",
    encounterDisplay := some "Office Visit" }

/-- The document produced by the concrete C3 case-B witness run. -/
def c3wOut : Json :=
  .obj
    [ ("resourceType", .str "DocumentReference"),
      ("status", .str "current"),
      ("identifier", .arr [.obj [("system", .str "https://example.com/fhir-test"),
        ("value", .str "consultation-9")]]),
      ("subject", .obj [("reference", .str "Patient/p2")]),
      ("date", .str "2025-01-15T10:00:00Z"),
      ("author", .arr [.obj [("reference", .str "Practitioner/example"),
        ("display", .str "Dr. Example Provider")]]),
      ("description", .str "FHIR Test App"),
      ("context",
        .obj
          [ ("encounter", .arr [.obj [("reference", .str "Encounter/visit-789"),
              ("display", .str "Office Visit")]]),
            ("period", .obj [("start", .str "2025-01-15T10:00:00Z"),
              ("end", .str "2025-01-15T10:00:00Z")]) ]),
      ("content", .arr [.obj [("attachment",
        .obj [("contentType", .str "text/plain; charset=utf-8"),
          ("data", .str "Tm90ZSBib2R5")])]]) ]

/-- Claim C3 (amended): in the current localizer, with no (or an empty, hence
falsy) `encounterReference` the encounter placeholders become empty strings
and the all-empty `context.encounter` field is deleted from the output; with a
supplied non-empty (brace-free) reference, every `context.encounter` entry of
the output carries it verbatim. The older localizer variant instead defaults
the reference to `#e1` (see the counterexample). -/
theorem claim_C3 :
    (∀ (opts : LocalizationOptions) (contentText : String) (tp : TimeParts) (ts : String)
        (nowMs : Nat) (out : Json), opts.encounterReference = none →
        localizeDocRefCore opts docTemplateSpec contentText tp ts nowMs = .ok out →
        jsGetIn out ["context", "encounter"] = none) ∧
    (∀ (opts : LocalizationOptions) (contentText : String) (tp : TimeParts) (ts : String)
        (nowMs : Nat) (out : Json) (r : String), opts.encounterReference = some r →
        r ≠ "" → NoBrace r →
        localizeDocRefCore opts docTemplateSpec contentText tp ts nowMs = .ok out →
        ∃ es, es ≠ [] ∧ jsGetIn out ["context", "encounter"] = some (.arr es) ∧
          ∀ e ∈ es, jsGet e "reference" = some (.str r)) := by
  constructor
  · intro opts contentText tp ts nowMs out hr hok
    cases hlk : lookupStr TEMPLATE_MAPPINGS opts.type with
    | none => simp only [localizeDocRefCore, hlk] at hok; cases hok
    | some m =>
        simp only [localizeDocRefCore, hlk] at hok
        exact localizeTemplate_enc_none opts _ _ _ ts nowMs out (by simp [strTruthy, hr]) hok
  · intro opts contentText tp ts nowMs out r hr hne hb hok
    cases hlk : lookupStr TEMPLATE_MAPPINGS opts.type with
    | none => simp only [localizeDocRefCore, hlk] at hok; cases hok
    | some m =>
        simp only [localizeDocRefCore, hlk] at hok
        exact localizeTemplate_enc_some opts _ _ _ ts nowMs out r hr hne hb hok

/-- Witness for claim C3: both branches applied at concrete runs — a run with
no encounter reference (the C1 witness run) whose output has no
`context.encounter`, and a run with the reference `Encounter/visit-789`. -/
theorem claim_C3_witness :
    (localizeDocRefCore c1wOpts docTemplateSpec "Hello note" c1wTp
        "2025-01-15T10:00:00Z" 5 = .ok c1wOut ∧
      jsGetIn c1wOut ["context", "encounter"] = none) ∧
    (localizeDocRefCore c3wOpts docTemplateSpec "Note body" c1wTp
        "2025-01-15T10:00:00Z" 9 = .ok c3wOut ∧
      ∃ es, es ≠ [] ∧ jsGetIn c3wOut ["context", "encounter"] = some (.arr es) ∧
        ∀ e ∈ es, jsGet e "reference" = some (.str "Encounter/visit-789")) := by
  have hokA : localizeDocRefCore c1wOpts docTemplateSpec "Hello note" c1wTp
      "2025-01-15T10:00:00Z" 5 = .ok c1wOut := by decide
  have hokB : localizeDocRefCore c3wOpts docTemplateSpec "Note body" c1wTp
      "2025-01-15T10:00:00Z" 9 = .ok c3wOut := by decide
  refine ⟨⟨hokA, ?_⟩, ⟨hokB, ?_⟩⟩
  · exact claim_C3.1 c1wOpts "Hello note" c1wTp "2025-01-15T10:00:00Z" 5 c1wOut rfl hokA
  · exact claim_C3.2 c3wOpts "Note body" c1wTp "2025-01-15T10:00:00Z" 9 c3wOut
      "Encounter/visit-789" rfl (by decide) (by decide) hokB

/-- The template used by the C3 counterexample against the older localizer. -/
def c3cTemplate : Json :=
  .obj [("context", .obj [("encounter",
    .arr [.obj [("reference", .str phENCOUNTER_REFERENCE)]])])]

/-- Counterexample to claim C3 as stated: in the older localizer variant, a
call with `encounterReference` absent does not replace the encounter
placeholder with an empty string — the default `#e1` is substituted and the
`context.encounter` field is kept. -/
theorem claim_C3_counterexample :
    jsGetIn (localizeTemplateV1 c3cTemplate
        { type := "plaintext", patientId := "p1", server := "smart" }
        "QUJD" 3 "text/plain; charset=utf-8" "2025-01-15T10:00:00Z" 7)
      ["context", "encounter"] =
      some (.arr [.obj [("reference", .str "#e1")]]) ∧ ("#e1" : String) ≠ "" := by
  constructor
  · decide
  · decide

theorem lookupField_setField_self (fs : List (String × Json)) (k : String) (v : Json) :
    lookupField (setField fs k v) k = some v := by
  induction fs with
  | nil => simp [setField, lookupField]
  | cons p rest ih =>
      obtain ⟨pk, pv⟩ := p
      by_cases hpk : pk = k
      · subst hpk
        simp [setField, lookupField]
      · simp only [setField, if_neg hpk, lookupField]
        exact ih

/-- Claim C9 (amended): the older localizer is the composition of its
placeholder substitution with the contained-synthesis step; that step, when
the effective encounter reference is `#e1` and the parsed output has no
truthy `contained` value (absent — or present but falsy, such as `null`),
installs exactly one contained Encounter with id `e1` whose
`subject.reference` is `Patient/<patientId>`; with a truthy `contained` value
or a different reference nothing is synthesized. -/
theorem claim_C9 :
    (∀ (template : Json) (opts : LocalizationOptions) (b64 : String) (sz : Nat)
        (ct ts : String) (nowMs : Nat),
        localizeTemplateV1 template opts b64 sz ct ts nowMs =
          addContainedV1 (jsOrOpt opts.encounterReference "#e1") opts.patientId
            (Json.mapStr (substLeaf (pairsV1 opts ts (opts.type ++ "-" ++ toString nowMs)
              b64 sz ct nowMs)) template)) ∧
    (∀ (fs : List (String × Json)) (pid : String),
        jsTruthyOpt (jsGet (.obj fs) "contained") = false →
        jsGet (addContainedV1 "#e1" pid (.obj fs)) "contained" =
          some (.arr [e1Encounter pid]) ∧
        jsGetIn (e1Encounter pid) ["subject", "reference"] =
          some (.str ("Patient/" ++ pid))) ∧
    (∀ (parsed : Json) (pid : String),
        jsTruthyOpt (jsGet parsed "contained") = true →
        addContainedV1 "#e1" pid parsed = parsed) ∧
    (∀ (parsed : Json) (pid eref : String), eref ≠ "#e1" →
        addContainedV1 eref pid parsed = parsed) := by
  refine ⟨fun template opts b64 sz ct ts nowMs => rfl, ?_, ?_, ?_⟩
  · intro fs pid h
    constructor
    · unfold addContainedV1
      rw [if_pos (by simp [h])]
      exact lookupField_setField_self fs "contained" _
    · rfl
  · intro parsed pid h
    unfold addContainedV1
    rw [if_neg (by simp [h])]
  · intro parsed pid eref h
    unfold addContainedV1
    rw [if_neg (by simp [h])]

/-- Witness for claim C9: the three conditional parts applied at concrete
inputs — a parsed output without `contained`, one with a truthy `contained`,
and a non-`#e1` reference. -/
theorem claim_C9_witness :
    (jsTruthyOpt (jsGet (.obj [("resourceType", .str "DocumentReference")]) "contained")
        = false ∧
      jsGet (addContainedV1 "#e1" "p9" (.obj [("resourceType", .str "DocumentReference")]))
        "contained" = some (.arr [e1Encounter "p9"])) ∧
    (jsTruthyOpt (jsGet (.obj [("contained", .arr [.obj []])] : Json) "contained") = true ∧
      addContainedV1 "#e1" "p9" (.obj [("contained", .arr [.obj []])]) =
        .obj [("contained", .arr [.obj []])]) ∧
    (("Encounter/1" : String) ≠ "#e1" ∧
      addContainedV1 "Encounter/1" "p9" (.obj []) = .obj []) := by
  refine ⟨⟨by decide, ?_⟩, ⟨by decide, ?_⟩, ⟨by decide, ?_⟩⟩
  · exact (claim_C9.2.1 [("resourceType", .str "DocumentReference")] "p9" (by decide)).1
  · exact claim_C9.2.2.1 (.obj [("contained", .arr [.obj []])]) "p9" (by decide)
  · exact claim_C9.2.2.2 (.obj []) "p9" "Encounter/1" (by decide)

/-- Counterexample to claim C9 as stated: a parsed template that does have a
`contained` field (value `null`) still gains the synthesized encounter,
because the code tests truthiness rather than presence. -/
theorem claim_C9_counterexample :
    jsGet (.obj [("contained", Json.null)] : Json) "contained" = some Json.null ∧
    localizeTemplateV1 (.obj [("contained", Json.null)])
        { type := "plaintext", patientId := "p1", server := "smart" }
        "QQ==" 1 "text/plain; charset=utf-8" "2025-01-15T10:00:00Z" 3 =
      .obj [("contained", .arr [e1Encounter "p1"])] := by
  constructor
  · decide
  · decide

/-- Claim C8: a string-typed contained encounter is `JSON.parse`d and a parse
failure is a fatal error naming the offending `--encounter-contained` input;
the parsed (or directly given) object is appended unchanged to the output
`contained` array — created when the field is absent (falsy), with
pre-existing entries preserved when it is an array. -/
theorem claim_C8 :
    (∀ (parsed : Json) (s : String) (j : Json) (xs : List Json), s ≠ "" →
        jsonParse s = some j → jsGet parsed "contained" = some (.arr xs) →
        applyContained (some (.rawStr s)) parsed =
          .ok (jsSet parsed "contained" (.arr (xs ++ [j])))) ∧
    (∀ (parsed : Json) (s : String), s ≠ "" → jsonParse s = none →
        applyContained (some (.rawStr s)) parsed =
          .error ("Invalid JSON in --encounter-contained: " ++ jsonParseErrorMsg)) ∧
    (∀ (parsed j : Json), jsTruthyOpt (jsGet parsed "contained") = false →
        jsTruthy j = true →
        applyContained (some (.asObj j)) parsed =
          .ok (jsSet parsed "contained" (.arr [j]))) ∧
    (∀ (parsed j : Json) (xs : List Json), jsTruthy j = true →
        jsGet parsed "contained" = some (.arr xs) →
        applyContained (some (.asObj j)) parsed =
          .ok (jsSet parsed "contained" (.arr (xs ++ [j])))) := by
  refine ⟨?_, ?_, ?_, ?_⟩
  · intro parsed s j xs hne hparse hx
    simp only [applyContained]
    rw [if_neg (by simp [containedTruthy, hne])]
    simp only [hparse, hx]
    rfl
  · intro parsed s hne hparse
    simp only [applyContained]
    rw [if_neg (by simp [containedTruthy, hne])]
    simp only [hparse]
    rfl
  · intro parsed j hfalsy hj
    simp only [applyContained]
    rw [if_neg (by simp [containedTruthy, hj])]
    cases hc : jsGet parsed "contained" with
    | none => simp only [hc]; rfl
    | some v =>
        rw [hc] at hfalsy
        cases v with
        | arr xs => simp [jsTruthyOpt, jsTruthy] at hfalsy
        | obj fs => simp [jsTruthyOpt, jsTruthy] at hfalsy
        | null => simp only [hc]; rfl
        | bool b =>
            simp only [jsTruthyOpt, jsTruthy] at hfalsy
            subst hfalsy
            simp only [hc]
            rfl
        | num n =>
            simp only [jsTruthyOpt, jsTruthy, bne_eq_false_iff_eq] at hfalsy
            subst hfalsy
            simp only [hc]
            rfl
        | str t =>
            simp only [jsTruthyOpt, jsTruthy, bne_eq_false_iff_eq] at hfalsy
            subst hfalsy
            simp only [hc]
            rfl
  · intro parsed j xs hj hx
    simp only [applyContained]
    rw [if_neg (by simp [containedTruthy, hj])]
    simp only [hx]
    rfl

/-- Witness for claim C8: the four branches applied at concrete inputs — a
valid JSON string appended to an existing `contained` array, an invalid JSON
string, and an object appended with and without a pre-existing array. -/
theorem claim_C8_witness :
    (jsonParse "\x7b\"id\":\"e1\"\x7d" = some (.obj [("id", .str "e1")]) ∧
      applyContained (some (.rawStr "\x7b\"id\":\"e1\"\x7d"))
        (.obj [("contained", .arr [.obj [("id", .str "p0")]])]) =
        .ok (.obj [("contained", .arr [.obj [("id", .str "p0")],
          .obj [("id", .str "e1")]])])) ∧
    (jsonParse "not json" = none ∧
      applyContained (some (.rawStr "not json")) (.obj []) =
        .error ("Invalid JSON in --encounter-contained: " ++ jsonParseErrorMsg)) ∧
    (applyContained (some (.asObj (.obj [("id", .str "e9")]))) (.obj []) =
      .ok (.obj [("contained", .arr [.obj [("id", .str "e9")]])])) ∧
    (applyContained (some (.asObj (.obj [("id", .str "e9")])))
        (.obj [("contained", .arr [.null])]) =
      .ok (.obj [("contained", .arr [.null, .obj [("id", .str "e9")]])])) := by
  refine ⟨⟨by decide, ?_⟩, ⟨by decide, ?_⟩, ?_, ?_⟩
  · exact (claim_C8.1 (.obj [("contained", .arr [.obj [("id", .str "p0")]])])
      "\x7b\"id\":\"e1\"\x7d" (.obj [("id", .str "e1")]) [.obj [("id", .str "p0")]]
      (by decide) (by decide) (by decide)).trans (by decide)
  · exact claim_C8.2.1 (.obj []) "not json" (by decide) (by decide)
  · exact (claim_C8.2.2.1 (.obj []) (.obj [("id", .str "e9")]) (by decide)
      (by decide)).trans (by decide)
  · exact (claim_C8.2.2.2 (.obj [("contained", .arr [.null])]) (.obj [("id", .str "e9")])
      [.null] (by decide) (by decide)).trans (by decide)

theorem getD_length_sub_one : ∀ (l : List String), l.getD (l.length - 1) "" = l.getLastD ""
  | [] => rfl
  | [x] => rfl
  | x :: y :: ys => by
      have ih := getD_length_sub_one (y :: ys)
      simp only [List.length_cons, Nat.add_sub_cancel] at ih
      have h1 : (x :: y :: ys).getD (ys.length + 1) "" = (y :: ys).getD ys.length "" := by
        simp [List.getD]
      show (x :: y :: ys).getD (ys.length + 1) "" = (x :: y :: ys).getLastD ""
      rw [h1, ih]
      simp [List.getLastD, List.getLast]

/-- Claim C4 (amended): the patient display name is split on single spaces,
the first token becoming the given name and the SECOND token (not the last)
the family name, with `Test`/`Patient` destructuring defaults; the author
display has a leading `Dr.` title (plus following whitespace) stripped and is
then split, the first token becoming the given name and the last token the
family name (empty tokens falling back to `Example`/`Provider`); the suffix
is `MD` exactly when the unstripped author display contains the substring
`MD`. -/
theorem claim_C4 (opts : LocalizationOptions) :
    (contentNameParts opts).patientGiven =
      (splitOnChar ' ' (jsOrOpt opts.patientName "Test Patient")).headD "Test" ∧
    (contentNameParts opts).patientFamily =
      ((splitOnChar ' ' (jsOrOpt opts.patientName "Test Patient")).get? 1).getD "Patient" ∧
    (contentNameParts opts).authorGiven =
      jsOr ((splitOnChar ' '
        (stripDrTitle (jsOrOpt opts.authorDisplay "Dr. Example Provider"))).headD "")
        "Example" ∧
    (contentNameParts opts).authorFamily =
      jsOr ((splitOnChar ' '
        (stripDrTitle (jsOrOpt opts.authorDisplay "Dr. Example Provider"))).getLastD "")
        "Provider" ∧
    ((contentNameParts opts).authorSuffix = "MD" ↔
      containsSub "MD".data (jsOrOpt opts.authorDisplay "Dr. Example Provider").data = true) := by
  refine ⟨?_, ?_, ?_, ?_, ?_⟩
  · show destructD ((splitOnChar ' ' (jsOrOpt opts.patientName "Test Patient")).get? 0)
      "Test" = _
    cases splitOnChar ' ' (jsOrOpt opts.patientName "Test Patient") <;> rfl
  · show destructD ((splitOnChar ' ' (jsOrOpt opts.patientName "Test Patient")).get? 1)
      "Patient" = _
    cases (splitOnChar ' ' (jsOrOpt opts.patientName "Test Patient")).get? 1 <;> rfl
  · show jsOr ((splitOnChar ' '
      (stripDrTitle (jsOrOpt opts.authorDisplay "Dr. Example Provider"))).getD 0 "")
      "Example" = _
    cases splitOnChar ' ' (stripDrTitle (jsOrOpt opts.authorDisplay "Dr. Example Provider"))
      <;> rfl
  · show jsOr ((splitOnChar ' '
      (stripDrTitle (jsOrOpt opts.authorDisplay "Dr. Example Provider"))).getD
        ((splitOnChar ' '
          (stripDrTitle (jsOrOpt opts.authorDisplay "Dr. Example Provider"))).length - 1)
        "") "Provider" = _
    rw [getD_length_sub_one]
  · show (if containsSub "MD".data
      (jsOrOpt opts.authorDisplay "Dr. Example Provider").data then "MD" else "") = "MD" ↔ _
    constructor
    · intro h
      by_contra hc
      rw [if_neg (by simpa using hc)] at h
      exact absurd h (by decide)
    · intro h
      rw [if_pos h]

/-- Counterexample to claim C4 as stated: for the patient display name
`John Q. Public` the code takes the SECOND whitespace token `Q.` as the
family name, not the last token `Public`. -/
theorem claim_C4_counterexample :
    (contentNameParts
        { type := "consultation", patientId := "p1", server := "smart",
          patientName := some "John Q. Public" }).patientFamily = "Q." ∧
    (splitOnChar ' ' "John Q. Public").getLastD "" = "Public" ∧
    ("Q." : String) ≠ "Public" := by
  refine ⟨by decide, by decide, by decide⟩

theorem isPrefixOf_append (p : List Char) :
    ∀ (s t : List Char), p.isPrefixOf s = true → p.isPrefixOf (s ++ t) = true := by
  induction p with
  | nil => intro s t _; cases s ++ t <;> rfl
  | cons a p2 ih =>
      intro s t h
      cases s with
      | nil => simp [List.isPrefixOf] at h
      | cons b s2 =>
          simp only [List.isPrefixOf, Bool.and_eq_true] at h
          simp only [List.cons_append, List.isPrefixOf, Bool.and_eq_true]
          exact ⟨h.1, ih s2 t h.2⟩

theorem containsSub_append_left (p : List Char) :
    ∀ (s t : List Char), containsSub p s = true → containsSub p (s ++ t) = true := by
  intro s
  induction s with
  | nil =>
      intro t h
      unfold containsSub at h
      cases t with
      | nil => exact h
      | cons c r =>
          simp only [List.nil_append]
          unfold containsSub
          have h2 := isPrefixOf_append p [] (c :: r) h
          simp only [List.nil_append] at h2
          rw [h2]
          rfl
  | cons c s2 ih =>
      intro t h
      unfold containsSub at h
      rw [Bool.or_eq_true] at h
      simp only [List.cons_append]
      unfold containsSub
      rw [Bool.or_eq_true]
      rcases h with h | h
      · exact Or.inl (by
          have := isPrefixOf_append p (c :: s2) t h
          simpa using this)
      · exact Or.inr (ih t h)

theorem containsSub_append_right (p : List Char) :
    ∀ (t s : List Char), containsSub p s = true → containsSub p (t ++ s) = true := by
  intro t
  induction t with
  | nil => intro s h; exact h
  | cons c t2 ih =>
      intro s h
      simp only [List.cons_append]
      unfold containsSub
      rw [Bool.or_eq_true]
      exact Or.inr (ih s h)

theorem containsSub_refl (p : List Char) : containsSub p p = true := by
  cases p with
  | nil => rfl
  | cons c r =>
      unfold containsSub
      rw [isPrefixOf_self]
      rfl

theorem mem_joinWith (sep : String) :
    ∀ (l : List String), ∀ x ∈ l, containsSub x.data (joinWith sep l).data = true := by
  intro l
  induction l with
  | nil => intro x hx; simp at hx
  | cons a rest ih =>
      intro x hx
      cases rest with
      | nil =>
          simp only [List.mem_singleton] at hx
          subst hx
          exact containsSub_refl x.data
      | cons b rest2 =>
          simp only [joinWith, strData_append]
          rcases List.mem_cons.mp hx with hx | hx
          · subst hx
            exact containsSub_append_left _ _ _
              (containsSub_append_left _ _ _ (containsSub_refl x.data))
          · exact containsSub_append_right _ _ _ (ih x hx)

/-- Claim C2 (amended): in the strict executor variant, `execute` without
`configName` fails with the run-setup message when no `.json` config exists,
auto-selects the config when exactly one exists, and fails with a message
listing every candidate name when two or more exist. The older variant in
`assets/lib/fhir-request.ts` instead silently selects the most-recently
modified config (see the counterexample) and its zero-config error does not
mention setup. -/
theorem claim_C2 :
    (∀ (cd : String) (dir : List ConfigFile),
        dir.filter (fun f => strEndsWith f.fname ".json") = [] →
        selectConfigStrict none cd dir = .error noConfigsMsgStrict) ∧
    containsSub "Run the setup script".data noConfigsMsgStrict.data = true ∧
    (∀ (cd : String) (dir : List ConfigFile) (f : ConfigFile),
        dir.filter (fun f => strEndsWith f.fname ".json") = [f] →
        selectConfigStrict none cd dir = .ok f.cfg) ∧
    (∀ (cd : String) (dir : List ConfigFile) (f g : ConfigFile) (rest : List ConfigFile),
        dir.filter (fun f => strEndsWith f.fname ".json") = f :: g :: rest →
        ∃ msg, selectConfigStrict none cd dir = .error msg ∧
          ∀ x ∈ f :: g :: rest,
            containsSub (replaceFirst ".json" "" x.fname).data msg.data = true) := by
  refine ⟨?_, by decide, ?_, ?_⟩
  · intro cd dir h
    simp only [selectConfigStrict, h]
  · intro cd dir f h
    simp only [selectConfigStrict, h]
  · intro cd dir f g rest h
    refine ⟨multiConfigsMsgStrict
      (joinWith ", " ((f :: g :: rest).map (fun x => replaceFirst ".json" "" x.fname))), ?_, ?_⟩
    · simp only [selectConfigStrict, h]
    · intro x hx
      have hmem : replaceFirst ".json" "" x.fname ∈
          (f :: g :: rest).map (fun x => replaceFirst ".json" "" x.fname) :=
        List.mem_map_of_mem _ hx
      have hj := mem_joinWith ", " _ _ hmem
      unfold multiConfigsMsgStrict
      simp only [strData_append]
      apply containsSub_append_left
      apply containsSub_append_left
      apply containsSub_append_left
      apply containsSub_append_right
      exact hj

def cfgA : FHIRConfig := { name := "alpha", fhirBaseUrl := "https://a.example", mode := "open" }

def cfgB : FHIRConfig := { name := "beta", fhirBaseUrl := "https://b.example", mode := "open" }

/-- Counterexample to claim C2 as stated: the older executor variant, given
two configs and no explicit name, silently selects the most-recently-modified
one instead of failing with a disambiguation request. -/
theorem claim_C2_counterexample :
    selectConfigLegacy none "/proj/.fhir-configs"
      [⟨"alpha.json", 100, cfgA⟩, ⟨"beta.json", 200, cfgB⟩] = .ok cfgB ∧
    cfgB ≠ cfgA := by
  constructor
  · rfl
  · decide

/-- Witness for claim C2: the three strict-variant cases applied at concrete
directories — empty, a single config next to a non-config file, and two
configs. -/
theorem claim_C2_witness :
    (([⟨"readme.txt", 1, cfgA⟩] : List ConfigFile).filter
        (fun f => strEndsWith f.fname ".json") = [] ∧
      selectConfigStrict none "/p/.fhir-configs" [⟨"readme.txt", 1, cfgA⟩] =
        .error noConfigsMsgStrict) ∧
    (([⟨"alpha.json", 1, cfgA⟩, ⟨"readme.txt", 2, cfgB⟩] : List ConfigFile).filter
        (fun f => strEndsWith f.fname ".json") = [⟨"alpha.json", 1, cfgA⟩] ∧
      selectConfigStrict none "/p/.fhir-configs"
        [⟨"alpha.json", 1, cfgA⟩, ⟨"readme.txt", 2, cfgB⟩] = .ok cfgA) ∧
    (∃ msg, selectConfigStrict none "/p/.fhir-configs"
        [⟨"alpha.json", 100, cfgA⟩, ⟨"beta.json", 200, cfgB⟩] = .error msg ∧
      ∀ x ∈ ([⟨"alpha.json", 100, cfgA⟩, ⟨"beta.json", 200, cfgB⟩] : List ConfigFile),
        containsSub (replaceFirst ".json" "" x.fname).data msg.data = true) := by
  refine ⟨⟨by decide, ?_⟩, ⟨by decide, ?_⟩, ?_⟩
  · exact claim_C2.1 "/p/.fhir-configs" [⟨"readme.txt", 1, cfgA⟩] (by decide)
  · exact claim_C2.2.2.1 "/p/.fhir-configs"
      [⟨"alpha.json", 1, cfgA⟩, ⟨"readme.txt", 2, cfgB⟩] ⟨"alpha.json", 1, cfgA⟩ (by decide)
  · exact claim_C2.2.2.2 "/p/.fhir-configs"
      [⟨"alpha.json", 100, cfgA⟩, ⟨"beta.json", 200, cfgB⟩]
      ⟨"alpha.json", 100, cfgA⟩ ⟨"beta.json", 200, cfgB⟩ [] (by decide)

/-- The last value a header list assigns to a key (later entries override
earlier ones, as successive JavaScript object assignments do). -/
def lastAssigned (hs : List (String × String)) (k : String) : Option String :=
  match hs with
  | [] => none
  | p :: rest =>
      match lastAssigned rest k with
      | some v => some v
      | none => if p.1 = k then some p.2 else none

theorem lookupHeader_setHeader_self (hs : List (String × String)) (k v : String) :
    lookupHeader (setHeader hs k v) k = some v := by
  induction hs with
  | nil => simp [setHeader, lookupHeader]
  | cons p rest ih =>
      obtain ⟨pk, pv⟩ := p
      by_cases hpk : pk = k
      · subst hpk
        simp [setHeader, lookupHeader]
      · simp only [setHeader, if_neg hpk, lookupHeader]
        exact ih

theorem lookupHeader_setHeader_ne (hs : List (String × String)) (k k2 v : String)
    (h : k2 ≠ k) : lookupHeader (setHeader hs k v) k2 = lookupHeader hs k2 := by
  induction hs with
  | nil =>
      simp only [setHeader, lookupHeader]
      rw [if_neg (fun he => h he.symm)]
  | cons p rest ih =>
      obtain ⟨pk, pv⟩ := p
      by_cases hpk : pk = k
      · subst hpk
        simp only [setHeader, if_pos rfl, lookupHeader]
        rw [if_neg (fun he => h he.symm), if_neg (fun he => h he.symm)]
      · simp only [setHeader, if_neg hpk, lookupHeader]
        by_cases hpk2 : pk = k2
        · rw [if_pos hpk2, if_pos hpk2]
        · rw [if_neg hpk2, if_neg hpk2, ih]

theorem lookup_mergeHeaders (hs : List (String × String)) :
    ∀ (base : List (String × String)) (k : String),
      lookupHeader (mergeHeaders base hs) k =
        match lastAssigned hs k with
        | some v => some v
        | none => lookupHeader base k := by
  induction hs with
  | nil => intro base k; rfl
  | cons p rest ih =>
      intro base k
      show lookupHeader (mergeHeaders (setHeader base p.1 p.2) rest) k = _
      rw [ih]
      cases hla : lastAssigned rest k with
      | some v => simp [lastAssigned, hla]
      | none =>
          simp only [lastAssigned, hla]
          by_cases hk : p.1 = k
          · rw [if_pos hk, hk, lookupHeader_setHeader_self]
          · rw [if_neg hk, lookupHeader_setHeader_ne base _ _ _ (fun he => hk he.symm)]

theorem lookup_buildHeaders_preserved (spec : RequestSpecM) (config : FHIRConfig)
    (k : String) (h1 : k ≠ "Authorization") (h2 : k ≠ "Content-Type") :
    lookupHeader (buildHeaders spec config) k =
      lookupHeader (mergeHeaders [("Accept", "application/fhir+json")] spec.headers) k := by
  simp only [buildHeaders]
  by_cases hb : spec.bodyFile.isSome = true
  · by_cases hcond : (tokenTruthy config.accessToken && config.mode != "open") = true
    · rw [if_pos hb, lookupHeader_setHeader_ne _ _ _ _ h2, if_pos hcond,
        lookupHeader_setHeader_ne _ _ _ _ h1]
    · rw [if_pos hb, lookupHeader_setHeader_ne _ _ _ _ h2, if_neg hcond]
  · by_cases hcond : (tokenTruthy config.accessToken && config.mode != "open") = true
    · rw [if_neg hb, if_pos hcond, lookupHeader_setHeader_ne _ _ _ _ h1]
    · rw [if_neg hb, if_neg hcond]

/-- Claim C7 (amended): `Accept: application/fhir+json` is the default and is
present whenever the caller does not supply an `Accept` header (caller headers
are merged after it and may override it); caller-supplied headers are
preserved except that `Authorization` and `Content-Type` may be overridden by
the later steps; a bearer `Authorization` from the config token is set
whenever the token is truthy and the mode is not `open`; and
`Content-Type: application/fhir+json` is set whenever a body file is supplied
and is absent when no body and no caller `Content-Type` are supplied. -/
theorem claim_C7 :
    (∀ (spec : RequestSpecM) (config : FHIRConfig),
        lastAssigned spec.headers "Accept" = none →
        lookupHeader (buildHeaders spec config) "Accept" =
          some "application/fhir+json") ∧
    (∀ (spec : RequestSpecM) (config : FHIRConfig) (k v : String),
        k ≠ "Authorization" → k ≠ "Content-Type" → lastAssigned spec.headers k = some v →
        lookupHeader (buildHeaders spec config) k = some v) ∧
    (∀ (spec : RequestSpecM) (config : FHIRConfig) (t : String),
        config.accessToken = some t → t ≠ "" → config.mode ≠ "open" →
        lookupHeader (buildHeaders spec config) "Authorization" =
          some ("Bearer " ++ t)) ∧
    (∀ (spec : RequestSpecM) (config : FHIRConfig), spec.bodyFile.isSome →
        lookupHeader (buildHeaders spec config) "Content-Type" =
          some "application/fhir+json") ∧
    (∀ (spec : RequestSpecM) (config : FHIRConfig), spec.bodyFile = none →
        lastAssigned spec.headers "Content-Type" = none →
        lookupHeader (buildHeaders spec config) "Content-Type" = none) := by
  refine ⟨?_, ?_, ?_, ?_, ?_⟩
  · intro spec config hla
    rw [lookup_buildHeaders_preserved spec config "Accept" (by decide) (by decide)]
    rw [lookup_mergeHeaders, hla]
    rfl
  · intro spec config k v h1 h2 hla
    rw [lookup_buildHeaders_preserved spec config k h1 h2]
    rw [lookup_mergeHeaders, hla]
  · intro spec config t hacc hne hmode
    have cond : (tokenTruthy config.accessToken && config.mode != "open") = true := by
      simp [tokenTruthy, hacc, hne, hmode]
    simp only [buildHeaders]
    by_cases hb : spec.bodyFile.isSome = true
    · rw [if_pos hb, lookupHeader_setHeader_ne _ _ _ _ (by decide), if_pos cond,
        lookupHeader_setHeader_self, hacc]
      rfl
    · rw [if_neg hb, if_pos cond, lookupHeader_setHeader_self, hacc]
      rfl
  · intro spec config hbody
    simp only [buildHeaders]
    rw [if_pos hbody, lookupHeader_setHeader_self]
  · intro spec config hbody hla
    simp only [buildHeaders]
    rw [if_neg (by simp [hbody])]
    by_cases hcond : (tokenTruthy config.accessToken && config.mode != "open") = true
    · rw [if_pos hcond, lookupHeader_setHeader_ne _ _ _ _ (by decide)]
      rw [lookup_mergeHeaders, hla]
      rfl
    · rw [if_neg hcond, lookup_mergeHeaders, hla]
      rfl

/-- Counterexample to claim C7 as stated: a caller-supplied `Accept` header
overrides the default, so the request headers do not always include
`Accept: application/fhir+json`. -/
theorem claim_C7_counterexample :
    lookupHeader (buildHeaders
      { method := "GET", path := "/Patient", headers := [("Accept", "text/plain")] }
      cfgA) "Accept" = some "text/plain" ∧
    ("text/plain" : String) ≠ "application/fhir+json" := by
  constructor
  · rfl
  · decide

def cfgTok : FHIRConfig :=
  { name := "tok", fhirBaseUrl := "https://t.example", accessToken := some "tok123",
    mode := "smart" }

/-- Witness for claim C7: its five parts applied at concrete specs and
configs. -/
theorem claim_C7_witness :
    (lookupHeader (buildHeaders { method := "GET", path := "/Patient" } cfgTok) "Accept" =
      some "application/fhir+json") ∧
    (lookupHeader (buildHeaders
      { method := "GET", path := "/Patient", headers := [("X-Trace", "t1")] } cfgTok)
      "X-Trace" = some "t1") ∧
    (lookupHeader (buildHeaders { method := "GET", path := "/Patient" } cfgTok)
      "Authorization" = some ("Bearer " ++ "tok123")) ∧
    (lookupHeader (buildHeaders
      { method := "POST", path := "/Patient", bodyFile := some "body.json" } cfgTok)
      "Content-Type" = some "application/fhir+json") ∧
    (lookupHeader (buildHeaders { method := "GET", path := "/Patient" } cfgTok)
      "Content-Type" = none) := by
  refine ⟨?_, ?_, ?_, ?_, ?_⟩
  · exact claim_C7.1 { method := "GET", path := "/Patient" } cfgTok (by decide)
  · exact claim_C7.2.1 { method := "GET", path := "/Patient", headers := [("X-Trace", "t1")] }
      cfgTok "X-Trace" "t1" (by decide) (by decide) (by decide)
  · exact claim_C7.2.2.1 { method := "GET", path := "/Patient" } cfgTok "tok123"
      rfl (by decide) (by decide)
  · exact claim_C7.2.2.2.1
      { method := "POST", path := "/Patient", bodyFile := some "body.json" } cfgTok rfl
  · exact claim_C7.2.2.2.2 { method := "GET", path := "/Patient" } cfgTok rfl (by decide)

/-- Claim C10 (amended): when the caller supplies no `Authorization` header,
the `Authorization` header of the built request is present exactly when the
config access token is truthy (present and non-empty) and the mode is not
`open` — in particular, with no token it is absent regardless of mode — and
its value is the bearer token. -/
theorem claim_C10 (spec : RequestSpecM) (config : FHIRConfig)
    (hla : lastAssigned spec.headers "Authorization" = none) :
    lookupHeader (buildHeaders spec config) "Authorization" =
      (if tokenTruthy config.accessToken && config.mode != "open" then
        some ("Bearer " ++ config.accessToken.getD "")
       else none) := by
  have hbase : lookupHeader (mergeHeaders [("Accept", "application/fhir+json")]
      spec.headers) "Authorization" = none := by
    rw [lookup_mergeHeaders, hla]
    rfl
  simp only [buildHeaders]
  by_cases hcond : (tokenTruthy config.accessToken && config.mode != "open") = true
  · by_cases hb : spec.bodyFile.isSome = true
    · rw [if_pos hb, lookupHeader_setHeader_ne _ _ _ _ (by decide), if_pos hcond,
        lookupHeader_setHeader_self, if_pos hcond]
    · rw [if_neg hb, if_pos hcond, lookupHeader_setHeader_self, if_pos hcond]
  · by_cases hb : spec.bodyFile.isSome = true
    · rw [if_pos hb, lookupHeader_setHeader_ne _ _ _ _ (by decide), if_neg hcond,
        if_neg hcond]
      exact hbase
    · rw [if_neg hb, if_neg hcond, if_neg hcond]
      exact hbase

/-- Counterexample to claim C10 as stated: with no access token in the config
but a caller-supplied `Authorization` header, an `Authorization` header is
still sent. -/
theorem claim_C10_counterexample :
    (FHIRConfig.accessToken
      { name := "n", fhirBaseUrl := "https://n.example", mode := "smart" }) = none ∧
    lookupHeader (buildHeaders
      { method := "GET", path := "/Patient", headers := [("Authorization", "Basic xyz")] }
      { name := "n", fhirBaseUrl := "https://n.example", mode := "smart" })
      "Authorization" = some "Basic xyz" := by
  constructor
  · rfl
  · rfl

/-- Witness for claim C10: with no caller `Authorization` header, a truthy
token and non-open mode produce the bearer header, and a token-less config
produces none even in a non-open mode. -/
theorem claim_C10_witness :
    lookupHeader (buildHeaders { method := "GET", path := "/Patient" } cfgTok)
      "Authorization" = some "Bearer tok123" ∧
    lookupHeader (buildHeaders { method := "GET", path := "/Patient" }
      { name := "n", fhirBaseUrl := "https://n.example", mode := "smart" })
      "Authorization" = none := by
  constructor
  · exact (claim_C10 { method := "GET", path := "/Patient" } cfgTok (by decide)).trans
      (by decide)
  · exact (claim_C10 { method := "GET", path := "/Patient" }
      { name := "n", fhirBaseUrl := "https://n.example", mode := "smart" }
      (by decide)).trans (by decide)

/-- Claim C5: for every executed request whose response status is at least
400, the executor writes the response metadata file and the response body
file (with a `.json` or `.txt` extension) and only then terminates the
calling process with exit code 1 — the diagnostic artifacts are persisted
although the outcome is fatal. The response-handling tail is identical in
both executor variants. -/
theorem claim_C5 (outputDir : String) (resp : HttpResponseM) (tsReq tsResp : String)
    (durMs : Nat) (h : resp.status ≥ 400) :
    ∃ ext mc bc, (ext = "json" ∨ ext = "txt") ∧
      responsePhase outputDir resp tsReq tsResp durMs =
        [ExecEvent.fileWrite (outputDir ++ "/response-metadata.json") mc,
         ExecEvent.fileWrite (outputDir ++ "/response-body." ++ ext) bc,
         ExecEvent.exitProc 1] := by
  cases hp : jsonParse resp.body with
  | some j =>
      refine ⟨"json", Json.render (responseMetadata resp tsReq tsResp durMs),
        Json.render j, Or.inl rfl, ?_⟩
      simp only [responsePhase, hp]
      rw [if_pos h]
      rfl
  | none =>
      refine ⟨"txt", Json.render (responseMetadata resp tsReq tsResp durMs),
        resp.body, Or.inr rfl, ?_⟩
      simp only [responsePhase, hp]
      rw [if_pos h]
      rfl

/-- Witness for claim C5: a mocked 404 response with a non-JSON body. -/
theorem claim_C5_witness :
    404 ≥ 400 ∧
    ∃ ext mc bc, (ext = "json" ∨ ext = "txt") ∧
      responsePhase "/work/req-1"
        { status := 404, statusText := "Not Found", rheaders := [], body := "gone" }
        "t1" "t2" 12 =
        [ExecEvent.fileWrite "/work/req-1/response-metadata.json" mc,
         ExecEvent.fileWrite ("/work/req-1/response-body." ++ ext) bc,
         ExecEvent.exitProc 1] :=
  ⟨by decide, claim_C5 "/work/req-1"
    { status := 404, statusText := "Not Found", rheaders := [], body := "gone" }
    "t1" "t2" 12 (by decide)⟩

theorem getProjectRootT_trace (fs : FsEnv) :
    ∀ (cwdRev : List String), ∀ op ∈ (getProjectRootT fs cwdRev).1,
      ∃ p, op = FsOp.statCheck p := by
  intro cwdRev
  induction cwdRev with
  | nil => intro op hop; simp [getProjectRootT] at hop
  | cons seg rest ih =>
      intro op hop
      unfold getProjectRootT at hop
      by_cases hex : fs.pathExists (renderPathRev (seg :: rest) ++ "/.fhir-configs") = true
      · rw [if_pos hex] at hop
        simp only [List.mem_singleton] at hop
        exact ⟨_, hop⟩
      · rw [if_neg hex] at hop
        cases hg : getProjectRootT fs rest with
        | mk t r =>
            rw [hg] at hop
            simp only [List.mem_cons] at hop
            rcases hop with hop | hop
            · exact ⟨_, hop⟩
            · exact ih op (by rw [hg]; exact hop)

/-- Claim C6 (amended): when project-root discovery succeeds, invoking the
localizer with a type that is not a key of the mapping table fails with the
unknown-type error enumerating the valid keys, and at that point no file has
been read or written — only the directory-existence probes of the (repeated)
project-root walk have run. Root discovery precedes the type check, so its
file-system probes do happen first, and its failure preempts the unknown-type
error. -/
theorem claim_C6 (fs : FsEnv) (cwdRev : List String) (opts : LocalizationOptions)
    (tp : TimeParts) (ts : String) (nowMs : Nat) (root : String)
    (hroot : (getProjectRootT fs cwdRev).2 = .ok root)
    (hty : lookupStr TEMPLATE_MAPPINGS opts.type = none) :
    (localizeDocumentReferenceT fs cwdRev opts tp ts nowMs).2 =
      .error (unknownTypeMsg opts.type) ∧
    ∀ op ∈ (localizeDocumentReferenceT fs cwdRev opts tp ts nowMs).1,
      ∃ p, op = FsOp.statCheck p := by
  cases hg : getProjectRootT fs cwdRev with
  | mk t1 pr =>
      rw [hg] at hroot
      simp only at hroot
      subst hroot
      constructor
      · simp only [localizeDocumentReferenceT, hg, hty]
      · intro op hop
        simp only [localizeDocumentReferenceT, hg, hty] at hop
        simp only [List.mem_append] at hop
        rcases hop with hop | hop
        · exact getProjectRootT_trace fs cwdRev op (by rw [hg]; exact hop)
        · exact getProjectRootT_trace fs cwdRev op (by rw [hg]; exact hop)

/-- Counterexample to claim C6 as stated: with a project root present, the
unknown-type failure is preceded by file-system operations — the
existence probes of the project-root walk — so the failure does not occur
before any file I/O. -/
theorem claim_C6_counterexample :
    (localizeDocumentReferenceT
        { pathExists := fun p => p == "/proj/.fhir-configs", readFile := fun _ => none }
        ["proj"]
        { type := "unknown-format", patientId := "p1", server := "smart" }
        { currentDate := "d", currentTime := "t", currentTimestamp := "ts",
          currentTimestampCDA := "cda" } "TS" 1).2 =
      .error (unknownTypeMsg "unknown-format") ∧
    (localizeDocumentReferenceT
        { pathExists := fun p => p == "/proj/.fhir-configs", readFile := fun _ => none }
        ["proj"]
        { type := "unknown-format", patientId := "p1", server := "smart" }
        { currentDate := "d", currentTime := "t", currentTimestamp := "ts",
          currentTimestampCDA := "cda" } "TS" 1).1 =
      [FsOp.statCheck "/proj/.fhir-configs", FsOp.statCheck "/proj/.fhir-configs"] := by
  constructor
  · rfl
  · rfl

/-- Witness for claim C6: the amended statement applied at the concrete
environment of the counterexample. -/
theorem claim_C6_witness :
    (localizeDocumentReferenceT
        { pathExists := fun p => p == "/proj/.fhir-configs", readFile := fun _ => none }
        ["proj"]
        { type := "nope", patientId := "p1", server := "smart" }
        { currentDate := "d", currentTime := "t", currentTimestamp := "ts",
          currentTimestampCDA := "cda" } "TS" 1).2 = .error (unknownTypeMsg "nope") ∧
    ∀ op ∈ (localizeDocumentReferenceT
        { pathExists := fun p => p == "/proj/.fhir-configs", readFile := fun _ => none }
        ["proj"]
        { type := "nope", patientId := "p1", server := "smart" }
        { currentDate := "d", currentTime := "t", currentTimestamp := "ts",
          currentTimestampCDA := "cda" } "TS" 1).1,
      ∃ p, op = FsOp.statCheck p :=
  claim_C6
    { pathExists := fun p => p == "/proj/.fhir-configs", readFile := fun _ => none }
    ["proj"]
    { type := "nope", patientId := "p1", server := "smart" }
    { currentDate := "d", currentTime := "t", currentTimestamp := "ts",
      currentTimestampCDA := "cda" } "TS" 1 "/proj" rfl rfl
